import Mathlib

/-!
# Voice command interpreter (`static/js/voice-interface.js`)

A shallow embedding of the `VoiceInterface` class: the regular expressions of the
source are written as syntax trees and run by a backtracking matcher that follows
the ECMAScript matching order (alternatives left to right, greedy and lazy
quantifiers, first start position wins); the handlers return the list of effects
(utterances and HTTP requests) they cause, in order.

Strings are lists of characters. The `i` flag of a pattern of ASCII characters
identifies each ASCII letter with its other case and nothing else. The methods
`toLowerCase` and `toUpperCase` map the letters `A` to `Z` and `a` to `z` as ECMAScript
does; for text outside ASCII the Unicode case tables are parameters of the environment,
so every theorem holds for whatever those tables contain. Console output is not part of
the recorded effects.
-/

namespace VoiceInterface

/-- A string of the program. -/
abbrev Str := List Char

/-! ## Regular expressions -/

/-- The single-character atoms used by the patterns of the source. -/
inductive CharSet where
  /-- a literal character, compared ignoring case (all patterns carry the `i` flag) -/
  | lit (c : Char)
  /-- the atom `.`: any character that is not a line terminator -/
  | dot
  /-- the class `\d` -/
  | digit
  /-- the class `[^\d]` -/
  | notDigit
  deriving DecidableEq, Repr

/-- Line terminators, which `.` does not match. -/
def isLineTerminator (c : Char) : Bool :=
  c.toNat == 0x0A || c.toNat == 0x0D || c.toNat == 0x2028 || c.toNat == 0x2029

/-- Membership of a character in an atom. -/
def CharSet.test : CharSet → Char → Bool
  | .lit p, c => c.toLower == p.toLower
  | .dot, c => !isLineTerminator c
  | .digit, c => c.isDigit
  | .notDigit, c => !c.isDigit

/-- Syntax of the patterns. Quantifiers `*`, `*?` and `+` are only ever applied to
single-character atoms in the source, `?` to a group. -/
inductive Regex where
  | empty
  | cls (c : CharSet)
  | seq (a b : Regex)
  | alt (a b : Regex)
  /-- greedy `a?` -/
  | opt (a : Regex)
  /-- greedy `c*` -/
  | star (c : CharSet)
  /-- lazy `c*?` -/
  | lazyStar (c : CharSet)
  /-- greedy `c+` -/
  | plus (c : CharSet)
  /-- capturing group number `i` -/
  | group (i : Nat) (a : Regex)
  /-- the assertion `^` (no `m` flag) -/
  | bos
  /-- the assertion `$` (no `m` flag) -/
  | eos
  deriving Repr

/-- Capture list: the most recent value of a group comes first. -/
abbrev Caps := List (Nat × Str)

/-- First of two alternatives that succeeds. -/
def orElse {α : Type} : Option α → Option α → Option α
  | some x, _ => some x
  | none, b => b

/-- Greedy repetition of an atom: take as many characters as possible, give back
one at a time while the continuation fails. -/
def starGreedy {α : Type} (p : Char → Bool) (k : Str → Option α) : Str → Option α
  | [] => k []
  | c :: cs => if p c then orElse (starGreedy p k cs) (k (c :: cs)) else k (c :: cs)

/-- Lazy repetition of an atom: try the continuation first, take one more
character while it fails. -/
def starLazy {α : Type} (p : Char → Bool) (k : Str → Option α) : Str → Option α
  | [] => k []
  | c :: cs => orElse (k (c :: cs)) (if p c then starLazy p k cs else none)

/-- Backtracking matcher in continuation-passing style. `n` is the length of the
whole input, `s` the part of the input not yet consumed. -/
def Regex.run {α : Type} (n : Nat) : Regex → (Str → Caps → Option α) → Str → Caps → Option α
  | .empty, k, s, c => k s c
  | .cls cs, k, s, c =>
      match s with
      | [] => none
      | x :: xs => if cs.test x then k xs c else none
  | .seq a b, k, s, c => a.run n (fun s1 c1 => b.run n k s1 c1) s c
  | .alt a b, k, s, c => orElse (a.run n k s c) (b.run n k s c)
  | .opt a, k, s, c => orElse (a.run n k s c) (k s c)
  | .star cs, k, s, c => starGreedy cs.test (fun s1 => k s1 c) s
  | .lazyStar cs, k, s, c => starLazy cs.test (fun s1 => k s1 c) s
  | .plus cs, k, s, c =>
      match s with
      | [] => none
      | x :: xs => if cs.test x then starGreedy cs.test (fun s1 => k s1 c) xs else none
  | .group i a, k, s, c =>
      a.run n (fun s1 c1 => k s1 ((i, s.take (s.length - s1.length)) :: c1)) s c
  | .bos, k, s, c => if s.length = n then k s c else none
  | .eos, k, s, c => match s with
      | [] => k [] c
      | _ :: _ => none

/-- Result of a successful match: start and end index and the captures. -/
structure MatchResult where
  index : Nat
  stop : Nat
  caps : Caps
  deriving DecidableEq, Repr

/-- Try the pattern at the start of each suffix, leftmost first. -/
def searchFrom (r : Regex) (n : Nat) : Str → Option MatchResult
  | [] => r.run n (fun s1 c1 => some ⟨n, n - s1.length, c1⟩) [] []
  | x :: xs =>
      orElse (r.run n (fun s1 c1 => some ⟨n - (x :: xs).length, n - s1.length, c1⟩) (x :: xs) [])
        (searchFrom r n xs)

/-- The first match of a pattern in a text, as `RegExp.prototype.exec` finds it. -/
def Regex.exec (r : Regex) (text : Str) : Option MatchResult :=
  searchFrom r text.length text

/-- The method `RegExp.prototype.test`. -/
def Regex.test (r : Regex) (text : Str) : Bool :=
  (r.exec text).isSome

/-- Value of capture group `i` of a match (`none` when the group did not take part). -/
def MatchResult.group (m : MatchResult) (i : Nat) : Option Str :=
  (m.caps.find? (fun p => p.1 == i)).map (fun p => p.2)

/-- The method `String.prototype.replace(pattern, '')` for a pattern without the `g` flag. -/
def replaceEmpty (r : Regex) (text : Str) : Str :=
  match r.exec text with
  | none => text
  | some m => text.take m.index ++ text.drop m.stop

/-- A literal string as a pattern. -/
def str : Str → Regex
  | [] => .empty
  | [c] => .cls (.lit c)
  | c :: cs => .seq (.cls (.lit c)) (str cs)

/-- A literal string as a pattern. -/
def lit (s : String) : Regex := str s.toList

/-- Concatenation of patterns. -/
def seqs : List Regex → Regex
  | [] => .empty
  | [r] => r
  | r :: rs => .seq r (seqs rs)

/-- Alternation of patterns, tried left to right. -/
def alts : List Regex → Regex
  | [] => .empty
  | [r] => r
  | r :: rs => .alt r (alts rs)

/-- Alternation of literal strings. -/
def words (ws : List String) : Regex := alts (ws.map lit)

/-! ## Strings -/

/-- Case folding of the `i` flag as it acts on patterns of ASCII characters: an ASCII
capital letter becomes its small letter, every other character stays. -/
def foldCase (s : Str) : Str := s.map Char.toLower

/-- Characters of the ASCII range. -/
def isAscii (c : Char) : Bool := decide (c.toNat < 128)

/-- The method `String.prototype.includes`. -/
def includes (text : Str) (part : Str) : Bool :=
  text.tails.any (fun t => part.isPrefixOf t)

/-- White space and line terminators, as `String.prototype.trim` removes them. -/
def isWhiteSpace (c : Char) : Bool :=
  c.toNat == 0x09 || c.toNat == 0x0A || c.toNat == 0x0B || c.toNat == 0x0C || c.toNat == 0x0D ||
  c.toNat == 0x20 || c.toNat == 0xA0 || c.toNat == 0x1680 ||
  (0x2000 ≤ c.toNat && c.toNat ≤ 0x200A) ||
  c.toNat == 0x2028 || c.toNat == 0x2029 || c.toNat == 0x202F || c.toNat == 0x205F ||
  c.toNat == 0x3000 || c.toNat == 0xFEFF

/-- The method `String.prototype.trim`. -/
def trim (s : Str) : Str :=
  (s.dropWhile isWhiteSpace).rdropWhile isWhiteSpace

/-! ## Data model and environment -/

/-- A ticket as the ticketing service returns it. -/
structure Ticket where
  id : Str
  title : Str
  description : Str
  location : Str
  priority : Str
  status : Str
  assigned_to : Option Str
  created_at : Str
  resolved_at : Option Str
  deriving DecidableEq, Repr

/-- An event as the events service returns it. -/
structure Event where
  title : Str
  datetime : Str
  deriving DecidableEq, Repr

/-- The body of `POST /tickets/`, built by `handleNewTicket`. -/
structure TicketData where
  title : Str
  description : Str
  location : Str
  priority : Str
  status : Str
  created_at : Str
  deriving DecidableEq, Repr

/-- How a `fetch` followed by `response.json()` ends: the fetch promise rejects
with an error message, or a response arrives with its `ok` flag, its status code and
the outcome of parsing its body. -/
inductive FetchResult (α : Type) where
  | rejected (message : Str)
  | response (ok : Bool) (status : Nat) (json : Except Str α)

/-- What the browser and the server contribute to one command. -/
structure Env where
  /-- outcome of `GET /tickets/` -/
  getTickets : FetchResult (List Ticket)
  /-- outcome of `POST /tickets/` with the given body -/
  postTickets : TicketData → FetchResult Ticket
  /-- outcome of `GET /events/` -/
  getEvents : FetchResult (List Event)
  /-- time value of `new Date(text)`; `none` for an invalid date -/
  dateValue : Str → Option Int
  /-- the text `new Date(text).toLocaleDateString()` -/
  toLocaleDateString : Str → Str
  /-- time value of `new Date()` -/
  now : Int
  /-- the text `new Date().toISOString()` -/
  nowISO : Str
  /-- whether a global function `loadDashboardData` exists -/
  hasLoadDashboardData : Bool
  /-- the Unicode lower-case mapping: the value of `text.toLowerCase()` for a text that
  has a character outside ASCII -/
  lowerCaseTable : Str → Str
  /-- the Unicode upper-case mapping of one character outside ASCII: the first character
  of its image and the rest of the image (the image is never empty) -/
  upperCaseTable : Char → Char × Str

/-- Observable effects of a command, in the order they happen. -/
inductive Effect where
  | speak (text : Str)
  | get (url : Str)
  | post (url : Str) (body : TicketData)
  | loadDashboardData
  deriving DecidableEq, Repr

/-- Effects of an asynchronous method together with how its promise settles. -/
structure Run (α : Type) where
  effects : List Effect
  result : Except Str α

/-- The method `String.prototype.toLowerCase`: on a text of ASCII characters the capital
letters become small letters; any other text is mapped by the Unicode table. -/
def toLowerCase (env : Env) (s : Str) : Str :=
  if s.all isAscii then s.map Char.toLower else env.lowerCaseTable s

/-- The method `String.prototype.toUpperCase`: every character is replaced by its
upper-case image, an ASCII character by the ASCII mapping, any other by the Unicode
table. -/
def toUpperCase (env : Env) (s : Str) : Str :=
  s.flatMap (fun c =>
    if isAscii c then [c.toUpper] else (env.upperCaseTable c).1 :: (env.upperCaseTable c).2)

/-- Whether an optional string is truthy. -/
def truthy : Option Str → Bool
  | some (_ :: _) => true
  | _ => false

/-- The expression `a || b` for an optional string `a` and a string `b`. -/
def orString (a : Option Str) (b : Str) : Str :=
  match a with
  | some (c :: cs) => c :: cs
  | _ => b

/-- Decimal text of a number in a template string. -/
def numText (n : Nat) : Str := (Nat.repr n).toList

/-! ## Ticket status -/

def troubleTickets : Str :=
  "I'm having trouble accessing the ticket system. Please try again later.".toList

def notFoundText (ticketId : Str) : Str :=
  "I couldn't find ticket ".toList ++ ticketId ++ ". Please check the number and try again.".toList

/-- The text `responseText` of `handleTicketStatus` for a ticket that was found. -/
def statusResponse (env : Env) (ticketId : Str) (ticket : Ticket) : Str :=
  "Ticket ".toList ++ ticketId ++ " is currently ".toList ++
    toLowerCase env ticket.status ++ ". ".toList ++
  ("It's a priority ".toList ++ ticket.priority ++ " issue. ".toList) ++
  (if truthy ticket.assigned_to then
     "It has been assigned to ".toList ++ ticket.assigned_to.getD [] ++ ". ".toList
   else []) ++
  (if toLowerCase env ticket.status = "resolved".toList ∧ truthy ticket.resolved_at then
     "This issue was resolved on ".toList ++
       env.toLocaleDateString (ticket.resolved_at.getD []) ++ ".".toList
   else if toLowerCase env ticket.status = "in progress".toList then
     "The team is working on it right now.".toList
   else
     "The team will address it as soon as possible.".toList)

/-- The method `handleTicketStatus`. -/
def handleTicketStatus (env : Env) (ticketId : Str) : List Effect :=
  .speak ("Checking status of ticket ".toList ++ ticketId ++ "...".toList) ::
  .get "/tickets/".toList ::
  match env.getTickets with
  | .rejected _ => [.speak troubleTickets]
  | .response ok _ json =>
      if !ok then [.speak troubleTickets]
      else match json with
        | .error _ => [.speak troubleTickets]
        | .ok tickets =>
            match tickets.find? (fun t => includes t.id ticketId) with
            | none => [.speak (notFoundText ticketId)]
            | some ticket => [.speak (statusResponse env ticketId ticket)]

/-! ## Ticket creation -/

/-- The method `extractFromPattern`: the trimmed first capture of the first match. -/
def extractFromPattern (text : Str) (pattern : Regex) : Option Str :=
  match pattern.exec text with
  | none => none
  | some m => (m.group 1).map trim

/-- The method `createTicket`. -/
def createTicket (env : Env) (ticketData : TicketData) : Run Ticket :=
  let start : List Effect :=
    [.speak "Creating your ticket now...".toList, .post "/tickets/".toList ticketData]
  let failed (message : Str) : Run Ticket :=
    { effects := start ++
        [.speak ("I'm sorry, I encountered an issue while creating your ticket. ".toList ++
          (if includes message "network".toList then
             "It seems there's a network issue. Please check your connection and try again.".toList
           else if includes message "500".toList then
             "There's an issue with our server. Please try again in a few minutes.".toList
           else
             "Please try again later or contact support if the problem persists.".toList))],
      result := .error message }
  match env.postTickets ticketData with
  | .rejected message => failed message
  | .response ok status json =>
      if !ok then failed ("HTTP error! status: ".toList ++ numText status)
      else match json with
        | .error message => failed message
        | .ok ticket =>
            { effects := start ++
                [.speak ("Your ticket has been created successfully! ".toList ++
                  ("Ticket number is ".toList ++ ticket.id.take 8 ++ ". ".toList) ++
                  ("It's been marked as priority ".toList ++ ticket.priority ++ ". ".toList) ++
                  (if ticket.priority = "P1".toList then
                     ("This is an emergency ticket and the team has been notified immediately. " ++
                      "Please ensure the area is secure and wait for further instructions.").toList
                   else if ticket.priority = "P2".toList then
                     ("A team member will be with you as soon as possible, " ++
                      "typically within the next 2-4 hours.").toList
                   else
                     ("A team member will address this during normal business hours. " ++
                      "You'll receive updates on the status.").toList))] ++
                (if env.hasLoadDashboardData then [.loadDashboardData] else []),
              result := .ok ticket }

/-- The pattern `/(issue|problem|ticket|request|maintenance)/i`. -/
def issuePattern : Regex :=
  .group 1 (words ["issue", "problem", "ticket", "request", "maintenance"])

/-- The pattern `/(?:about|regarding|with|for) (.*?)(?: (?:in|at|with|description|details)|$)/i`. -/
def titlePattern1 : Regex :=
  seqs [words ["about", "regarding", "with", "for"], lit " ", .group 1 (.lazyStar .dot),
    .alt (.seq (lit " ") (words ["in", "at", "with", "description", "details"])) .eos]

/-- The pattern
`/(?:issue|problem|ticket|request|maintenance) (?:with|in|at)? ?(.*?)(?: (?:in|at|with|description|details)|$)/i`. -/
def titlePattern2 : Regex :=
  seqs [words ["issue", "problem", "ticket", "request", "maintenance"], lit " ",
    .opt (words ["with", "in", "at"]), .opt (lit " "), .group 1 (.lazyStar .dot),
    .alt (.seq (lit " ") (words ["in", "at", "with", "description", "details"])) .eos]

/-- The pattern `/^(a|an|the) /i`. -/
def articlePattern : Regex :=
  seqs [.bos, .group 1 (words ["a", "an", "the"]), lit " "]

/-- The pattern `/(description|details|about|regarding|with|for)/i`. -/
def detailsPattern : Regex :=
  .group 1 (words ["description", "details", "about", "regarding", "with", "for"])

/-- The pattern
`/(?:description|details|about|regarding|issue is|problem is) (.*?)(?: (?:in|at|location)|$)/i`. -/
def descriptionPattern : Regex :=
  seqs [words ["description", "details", "about", "regarding", "issue is", "problem is"], lit " ",
    .group 1 (.lazyStar .dot),
    .alt (.seq (lit " ") (words ["in", "at", "location"])) .eos]

/-- The pattern `/(?:location|in|at|room|apartment|unit) (.*?)(?: (?:description|details)|$)/i`. -/
def locationPattern1 : Regex :=
  seqs [words ["location", "in", "at", "room", "apartment", "unit"], lit " ",
    .group 1 (.lazyStar .dot),
    .alt (.seq (lit " ") (words ["description", "details"])) .eos]

/-- The pattern
`/(?:in|at) (?:the )?(lobby|gym|pool|parking|elevator|lounge|terrace|hallway|staircase|basement|roof)/i`. -/
def locationPattern2 : Regex :=
  seqs [words ["in", "at"], lit " ", .opt (lit "the "),
    .group 1 (words ["lobby", "gym", "pool", "parking", "elevator", "lounge", "terrace",
      "hallway", "staircase", "basement", "roof"])]

/-- The pattern `/^(the|my|our) /i`. -/
def possessivePattern : Regex :=
  seqs [.bos, .group 1 (words ["the", "my", "our"]), lit " "]

/-- The pattern of the first priority test (`P1`). -/
def emergencyPattern : Regex :=
  .group 1 (words ["urgent", "emergency", "immediately", "right now", "flood", "flooding", "leak",
    "leaking", "flooded", "fire", "smoke", "spark", "sparking", "electrical shock"])

/-- The pattern of the second priority test (`P2`). -/
def highPattern : Regex :=
  .group 1 (alts [lit "important", lit "as soon as possible", lit "asap", lit "not working",
    lit "broken", lit "not functioning", lit "stopped working",
    .seq (lit "no ")
      (.group 2 (words ["water", "power", "electricity", "heat", "ac", "air conditioning"]))])

/-- The pattern of the third priority test (`P3`). -/
def mediumPattern : Regex :=
  .group 1 (words ["moderate", "medium", "normal", "minor", "small", "slight", "not urgent"])

/-- The title before the clean-up: first capture that is not empty, else the placeholder. -/
def extractTitle (transcript : Str) : Str :=
  orString (extractFromPattern transcript titlePattern1)
    (orString (extractFromPattern transcript titlePattern2) "General Maintenance".toList)

/-- Clean-up of the title: drop a leading article, upper-case the first character. -/
def cleanTitle (env : Env) (title : Str) : Str :=
  let title1 := replaceEmpty articlePattern title
  toUpperCase env (title1.take 1) ++ title1.drop 1

/-- The variable `title` of `handleNewTicket`. -/
def ticketTitle (env : Env) (transcript : Str) : Str :=
  cleanTitle env (extractTitle transcript)

/-- The variable `description` of `handleNewTicket`. -/
def ticketDescription (transcript : Str) : Str :=
  orString (extractFromPattern transcript descriptionPattern) "No additional details provided".toList

/-- The location before the clean-up. -/
def extractLocation (transcript : Str) : Str :=
  orString (extractFromPattern transcript locationPattern1)
    (orString (extractFromPattern transcript locationPattern2) "Not specified".toList)

/-- Clean-up of the location: drop a leading `the`, `my` or `our`, then trim. -/
def cleanLocation (location : Str) : Str :=
  trim (replaceEmpty possessivePattern location)

/-- The variable `location` of `handleNewTicket`. -/
def ticketLocation (transcript : Str) : Str := cleanLocation (extractLocation transcript)

/-- The variables `priority` and `priorityReason` of `handleNewTicket`. -/
def ticketPriority (transcript : Str) : Str × Str :=
  if emergencyPattern.test transcript then
    ("P1".toList,
     "This has been marked as an emergency. The maintenance team will respond immediately.".toList)
  else if highPattern.test transcript then
    ("P2".toList,
     "This has been marked as high priority. The team will address it as soon as possible.".toList)
  else if mediumPattern.test transcript then
    ("P3".toList,
     "This has been marked as medium priority. The team will address it during normal business hours.".toList)
  else
    ("P4".toList,
     "This has been marked as low priority. The team will address it as soon as they are available.".toList)

/-- The text `confirmationMessage` of `handleNewTicket`. -/
def confirmationMessage (priority title location description priorityReason : Str) : Str :=
  "I'll create a ".toList ++ priority ++ " priority ticket for: ".toList ++ title ++ ". ".toList ++
  ("Location: ".toList ++ location ++ ". ".toList) ++
  ("Description: ".toList ++ description ++ ". ".toList) ++
  (priorityReason ++ " Would you like me to submit this request?".toList)

/-- The first prompt of `handleNewTicket`. -/
def describePrompt : Str :=
  "I can help you create a maintenance request. Please describe the issue you're experiencing.".toList

/-- The second prompt of `handleNewTicket`. -/
def detailsPrompt (title : Str) : Str :=
  "I'll create a ticket for ".toList ++ title ++
    ". Could you please provide more details about the issue?".toList

/-- The ticket data `handleNewTicket` passes to `createTicket`. -/
def ticketDraft (env : Env) (transcript : Str) : TicketData :=
  { title := ticketTitle env transcript,
    description := ticketDescription transcript,
    location := ticketLocation transcript,
    priority := (ticketPriority transcript).1,
    status := "Open".toList,
    created_at := env.nowISO }

/-- The method `handleNewTicket`. -/
def handleNewTicket (env : Env) (transcript : Str) : Run Unit :=
  if !issuePattern.test transcript then
    { effects := [.speak describePrompt], result := .ok () }
  else if !detailsPattern.test transcript then
    { effects := [.speak (detailsPrompt (ticketTitle env transcript))], result := .ok () }
  else
    let created := createTicket env (ticketDraft env transcript)
    { effects :=
        .speak (confirmationMessage (ticketPriority transcript).1 (ticketTitle env transcript)
          (ticketLocation transcript) (ticketDescription transcript)
          (ticketPriority transcript).2) :: created.effects,
      result := created.result.map (fun _ => ()) }

/-! ## Events -/

/-- The filter predicate `new Date(event.datetime) > new Date()`; an invalid date
compares false. -/
def isUpcoming (env : Env) (event : Event) : Bool :=
  match env.dateValue event.datetime with
  | some t => decide (env.now < t)
  | none => false

/-- Whether the comparator `new Date(a.datetime) - new Date(b.datetime)` lets `a` stay
in front of `b`, that is, its value is not positive (a `NaN` value counts as zero). -/
def staysBefore (env : Env) (a b : Event) : Bool :=
  match env.dateValue a.datetime, env.dateValue b.datetime with
  | some x, some y => decide (x - y ≤ 0)
  | _, _ => true

/-- Insertion of an event in front of the first event it may stay before. -/
def insertEvent (env : Env) (e : Event) : List Event → List Event
  | [] => [e]
  | b :: l => if staysBefore env e b then e :: b :: l else b :: insertEvent env e l

/-- The call `sort` with the date comparator: `Array.prototype.sort` is stable, so its
result is that of a stable insertion sort. -/
def sortEvents (env : Env) : List Event → List Event
  | [] => []
  | e :: l => insertEvent env e (sortEvents env l)

/-- The variable `upcomingEvents` of `handleEventQuery`. -/
def upcomingEvents (env : Env) (events : List Event) : List Event :=
  sortEvents env (events.filter (isUpcoming env))

def troubleEvents : Str :=
  "I'm having trouble fetching the events right now. Please try again later.".toList

def noEventsText : Str :=
  "There are no upcoming events scheduled at the moment.".toList

/-- The text `responseText` of `handleEventQuery` for a non-empty list of upcoming
events with first element `first` and `length` elements in all. -/
def eventsResponse (env : Env) (first : Event) (length : Nat) : Str :=
  "There are ".toList ++ numText length ++ " upcoming events. ".toList ++
  (if length = 1 then
     "The event is ".toList ++ first.title ++ " on ".toList ++
       env.toLocaleDateString first.datetime ++ ".".toList
   else
     "The next event is ".toList ++
     (first.title ++ " on ".toList ++ env.toLocaleDateString first.datetime ++ ". ".toList) ++
     (if length > 1 then
        "There are ".toList ++ numText (length - 1) ++ " more events coming up.".toList
      else []))

/-- The method `handleEventQuery`. The `ok` flag of the response is not looked at. -/
def handleEventQuery (env : Env) : List Effect :=
  .get "/events/".toList ::
  match env.getEvents with
  | .rejected _ => [.speak troubleEvents]
  | .response _ _ json =>
      match json with
      | .error _ => [.speak troubleEvents]
      | .ok events =>
          match upcomingEvents env events with
          | [] => [.speak noEventsText]
          | first :: rest => [.speak (eventsResponse env first (first :: rest).length)]

/-! ## Help and dispatch -/

def helpText : Str :=
  ("I'm your Virtual Community Assistant. Here's what I can help you with: " ++
   "\n\nTICKETS: " ++
   "\n• 'Check status of ticket 123' - Get updates on your ticket" ++
   "\n• 'Report a problem with my AC' - Create a new maintenance request" ++
   "\n• 'I have a leak in my bathroom' - Report an urgent issue" ++
   "\n• 'The elevator is not working' - Report a common area issue" ++
   "\n\nEVENTS: " ++
   "\n• 'What events are coming up?' - See upcoming community events" ++
   "\n• 'Any events this weekend?' - Check weekend activities" ++
   "\n\nGENERAL: " ++
   "\n• 'Help' - Hear this message again" ++
   "\n• 'Cancel' - Stop the current action" ++
   "\n\nYou can also ask me things like: 'How do I pay rent?' or 'What are the pool hours?'").toList

/-- The method `showHelp`. -/
def showHelp : List Effect := [.speak helpText]

/-- The pattern `/(?:what's|what is|check|status).*?(?:ticket|issue|request)[^\d]*(\d+)/i`. -/
def statusPattern1 : Regex :=
  seqs [words ["what's", "what is", "check", "status"], .lazyStar .dot,
    words ["ticket", "issue", "request"], .star .notDigit, .group 1 (.plus .digit)]

/-- The pattern `/(?:ticket|issue|request)[^\d]*(\d+).*?(?:status|update)/i`. -/
def statusPattern2 : Regex :=
  seqs [words ["ticket", "issue", "request"], .star .notDigit, .group 1 (.plus .digit),
    .lazyStar .dot, words ["status", "update"]]

/-- The variable `ticketStatusMatch` of `processVoiceCommand`. -/
def ticketStatusMatch (command : Str) : Option MatchResult :=
  orElse (statusPattern1.exec command) (statusPattern2.exec command)

/-- The argument `ticketStatusMatch[1]` as a template string prints it. -/
def ticketIdOf (m : MatchResult) : Str :=
  (m.group 1).getD "undefined".toList

def fallbackText : Str :=
  "I'm not sure how to help with that. Say 'help' to know what I can do.".toList

/-- The method `processVoiceCommand`. The handlers are started and not awaited; the
effects listed are those of the handler that was started. -/
def processVoiceCommand (env : Env) (transcript : Str) : List Effect :=
  let command := toLowerCase env transcript
  match ticketStatusMatch command with
  | some m => handleTicketStatus env (ticketIdOf m)
  | none =>
      if includes command "create a new ticket".toList ||
          includes command "report an issue".toList then
        (handleNewTicket env command).effects
      else if includes command "upcoming events".toList ||
          includes command "what events are coming up".toList then
        handleEventQuery env
      else if includes command "help".toList || includes command "what can you do".toList then
        showHelp
      else
        [.speak fallbackText]

/-! ## Specification-side definitions and sample data -/

/-- Declarative reading of a pattern: `Matches n r s c s1 c1` says that, in an input of
length `n`, the pattern `r` can consume the prefix of `s` that leaves `s1`, turning the
captures `c` into `c1`. -/
def Matches (n : Nat) : Regex → Str → Caps → Str → Caps → Prop
  | .empty, s, c, s1, c1 => s1 = s ∧ c1 = c
  | .cls cs, s, c, s1, c1 => ∃ x, s = x :: s1 ∧ cs.test x = true ∧ c1 = c
  | .seq a b, s, c, s1, c1 => ∃ s2 c2, Matches n a s c s2 c2 ∧ Matches n b s2 c2 s1 c1
  | .alt a b, s, c, s1, c1 => Matches n a s c s1 c1 ∨ Matches n b s c s1 c1
  | .opt a, s, c, s1, c1 => Matches n a s c s1 c1 ∨ (s1 = s ∧ c1 = c)
  | .star cs, s, c, s1, c1 => ∃ m, s = m ++ s1 ∧ (∀ x ∈ m, cs.test x = true) ∧ c1 = c
  | .lazyStar cs, s, c, s1, c1 => ∃ m, s = m ++ s1 ∧ (∀ x ∈ m, cs.test x = true) ∧ c1 = c
  | .plus cs, s, c, s1, c1 =>
      ∃ m, m ≠ [] ∧ s = m ++ s1 ∧ (∀ x ∈ m, cs.test x = true) ∧ c1 = c
  | .group i a, s, c, s1, c1 =>
      ∃ c2, Matches n a s c s1 c2 ∧ c1 = (i, s.take (s.length - s1.length)) :: c2
  | .bos, s, c, s1, c1 => s.length = n ∧ s1 = s ∧ c1 = c
  | .eos, s, c, s1, c1 => s = [] ∧ s1 = [] ∧ c1 = c

/-- The finite set of lower-case texts a pattern built from literals, alternation,
option and groups stands for; `none` for the other patterns. -/
def literals : Regex → Option (List Str)
  | .empty => some [[]]
  | .cls (.lit c) => some [[c.toLower]]
  | .seq a b =>
      match literals a, literals b with
      | some la, some lb => some (la.flatMap (fun x => lb.map (fun y => x ++ y)))
      | _, _ => none
  | .alt a b =>
      match literals a, literals b with
      | some la, some lb => some (la ++ lb)
      | _, _ => none
  | .opt a =>
      match literals a with
      | some la => some (la ++ [[]])
      | none => none
  | .group _ a => literals a
  | _ => none

/-- Whether a text contains one of the keywords, ignoring the case of the text. -/
def containsAny (text : Str) (keywords : List Str) : Bool :=
  keywords.any (fun w => includes (foldCase text) w)

/-- Both events have a valid date and the first is not later than the second. -/
def NotLater (env : Env) (a b : Event) : Prop :=
  ∃ x y, env.dateValue a.datetime = some x ∧ env.dateValue b.datetime = some y ∧ x ≤ y

/-- A text that ends with a character that is not white space. -/
def EndsVisible (s : Str) : Prop :=
  ∃ init c, s = init ++ [c] ∧ isWhiteSpace c = false

/-- Patterns without a capturing group. -/
def groupFree : Regex → Bool
  | .seq a b => groupFree a && groupFree b
  | .alt a b => groupFree a && groupFree b
  | .opt a => groupFree a
  | .group _ _ => false
  | _ => true

/-- Sample date values: the day of June 2024 named by the text, when it is known. -/
def sampleDateValue (text : Str) : Option Int :=
  if text = "2024-06-01".toList then some 1
  else if text = "2024-06-10".toList then some 10
  else if text = "2024-06-20".toList then some 20
  else none

/-- Sample tickets: the id of the first contains the id of the second. -/
def sampleTickets : List Ticket :=
  [ { id := "5123".toList, title := "Door".toList, description := "Stuck".toList,
      location := "Lobby".toList, priority := "P2".toList, status := "In Progress".toList,
      assigned_to := some "Sam".toList, created_at := "2024-06-01".toList, resolved_at := none },
    { id := "123".toList, title := "Lamp".toList, description := "Dark".toList,
      location := "Gym".toList, priority := "P4".toList, status := "Open".toList,
      assigned_to := none, created_at := "2024-06-01".toList, resolved_at := none } ]

/-- Sample events: one past, two upcoming, the later one listed first. -/
def sampleEvents : List Event :=
  [ { title := "Yoga".toList, datetime := "2024-06-20".toList },
    { title := "Picnic".toList, datetime := "2024-06-01".toList },
    { title := "Movie".toList, datetime := "2024-06-10".toList } ]

/-- Sample environment: ticket and event lists are served, ticket creation fails with a
server error; of the Unicode case tables only the Kelvin sign (U+212A), whose small
letter is `k`, is present. -/
def sampleEnv : Env where
  getTickets := .response true 200 (.ok sampleTickets)
  postTickets := fun _ => .response false 500 (.error [])
  getEvents := .response true 200 (.ok sampleEvents)
  dateValue := sampleDateValue
  toLocaleDateString := fun text => text
  now := 5
  nowISO := "2024-06-05T00:00:00.000Z".toList
  hasLoadDashboardData := false
  lowerCaseTable := fun text =>
    text.map (fun c => if c.toNat = 0x212A then 'k' else c.toLower)
  upperCaseTable := fun c => (c, [])

/-- Whether an effect is an HTTP `POST`. -/
def isPost : Effect → Bool
  | .post _ _ => true
  | _ => false

/-- Sample environment in which ticket creation is answered with a created ticket. -/
def acceptingEnv : Env :=
  { sampleEnv with
    postTickets := fun body => .response true 201 (.ok
      { id := "9f8e7d6c5b4a".toList, title := body.title, description := body.description,
        location := body.location, priority := body.priority, status := body.status,
        assigned_to := none, created_at := body.created_at, resolved_at := none }) }

/-- Sample environment in which the ticket creation request is rejected. -/
def offlineEnv : Env :=
  { sampleEnv with postTickets := fun _ => .rejected "network error".toList }

/-- Sample ticket data. -/
def sampleData : TicketData :=
  { title := "Broken door".toList, description := "No additional details provided".toList,
    location := "lobby".toList, priority := "P2".toList, status := "Open".toList,
    created_at := "2024-06-05T00:00:00.000Z".toList }

/-- Emergency keywords as the specification lists them. -/
def emergencyKeywords : List Str :=
  ["emergency", "immediately", "right now", "flood", "flooding", "flooded", "leak", "leaking",
   "fire", "smoke", "spark", "sparking", "electrical shock"].map String.toList

/-- High-priority keywords as the specification lists them. -/
def highKeywords : List Str :=
  ["important", "as soon as possible", "asap", "not working", "broken", "not functioning",
   "stopped working", "no water", "no power", "no electricity", "no heat", "no ac",
   "no air conditioning"].map String.toList

/-- Medium-priority keywords as the specification lists them. -/
def mediumKeywords : List Str :=
  ["moderate", "medium", "normal", "minor", "small", "slight", "not urgent"].map String.toList

/-- Priority by keyword precedence as the specification states it. -/
def claimedPriority (transcript : Str) : Str :=
  if containsAny transcript emergencyKeywords then "P1".toList
  else if containsAny transcript highKeywords then "P2".toList
  else if containsAny transcript mediumKeywords then "P3".toList
  else "P4".toList

/-- Priority by keyword precedence with `urgent` among the emergency keywords and
without the medium keyword `not urgent`. -/
def amendedPriority (transcript : Str) : Str :=
  if containsAny transcript ("urgent".toList :: emergencyKeywords) then "P1".toList
  else if containsAny transcript highKeywords then "P2".toList
  else if containsAny transcript
      (["moderate", "medium", "normal", "minor", "small", "slight"].map String.toList) then
    "P3".toList
  else "P4".toList

/-- The text the apology of `createTicket` ends with, by error message. -/
def apologyAdvice (message : Str) : Str :=
  if includes message "network".toList then
    "It seems there's a network issue. Please check your connection and try again.".toList
  else if includes message "500".toList then
    "There's an issue with our server. Please try again in a few minutes.".toList
  else
    "Please try again later or contact support if the problem persists.".toList

/-- The error `createTicket` raises for a failed request: the rejection message of the
fetch, or the message built from the status of a response that is not ok. -/
def creationError : FetchResult Ticket → Str
  | .rejected message => message
  | .response _ status _ => "HTTP error! status: ".toList ++ numText status

/-- Whether an utterance starts as the success message of `createTicket` does. -/
def isSuccessUtterance : Effect → Bool
  | .speak text => "Your ticket has been created successfully!".toList.isPrefixOf text
  | _ => false

/-! ## Theorems -/

set_option maxRecDepth 100000

theorem orElse_eq_some {α : Type} {a b : Option α} {v : α} (h : orElse a b = some v) :
    a = some v ∨ (a = none ∧ b = some v) := by
  cases a with
  | none => exact Or.inr ⟨rfl, h⟩
  | some x => exact Or.inl h

theorem orElse_isSome {α : Type} (a b : Option α) :
    (orElse a b).isSome = (a.isSome || b.isSome) := by
  cases a <;> simp [orElse]

theorem starGreedy_sound {α : Type} (p : Char → Bool) (k : Str → Option α) (v : α) :
    ∀ s, starGreedy p k s = some v →
      ∃ m s1, s = m ++ s1 ∧ (∀ x ∈ m, p x = true) ∧ k s1 = some v := by
  intro s
  induction s with
  | nil => intro h; exact ⟨[], [], rfl, by simp, h⟩
  | cons c cs ih =>
    intro h
    simp only [starGreedy] at h
    split at h
    · rename_i hp
      rcases orElse_eq_some h with h1 | ⟨_, h2⟩
      · obtain ⟨m, s1, hs, hm, hk⟩ := ih h1
        refine ⟨c :: m, s1, by simp [hs], ?_, hk⟩
        intro x hx
        rcases List.mem_cons.1 hx with rfl | hx
        · exact hp
        · exact hm x hx
      · exact ⟨[], c :: cs, rfl, by simp, h2⟩
    · exact ⟨[], c :: cs, rfl, by simp, h⟩

theorem starGreedy_complete {α : Type} (p : Char → Bool) (k : Str → Option α) :
    ∀ (m s1 : Str), (∀ x ∈ m, p x = true) → (k s1).isSome = true →
      (starGreedy p k (m ++ s1)).isSome = true := by
  intro m
  induction m with
  | nil =>
    intro s1 _ hk
    cases s1 with
    | nil => simpa [starGreedy] using hk
    | cons c cs =>
      simp only [List.nil_append, starGreedy]
      split
      · rw [orElse_isSome, hk]; simp
      · exact hk
  | cons c m ih =>
    intro s1 hm hk
    have hc : p c = true := hm c (List.mem_cons_self _ _)
    have := ih s1 (fun x hx => hm x (List.mem_cons_of_mem _ hx)) hk
    simp [starGreedy, hc, orElse_isSome, this]

theorem starLazy_sound {α : Type} (p : Char → Bool) (k : Str → Option α) (v : α) :
    ∀ s, starLazy p k s = some v →
      ∃ m s1, s = m ++ s1 ∧ (∀ x ∈ m, p x = true) ∧ k s1 = some v := by
  intro s
  induction s with
  | nil => intro h; exact ⟨[], [], rfl, by simp, h⟩
  | cons c cs ih =>
    intro h
    simp only [starLazy] at h
    rcases orElse_eq_some h with h1 | ⟨_, h2⟩
    · exact ⟨[], c :: cs, rfl, by simp, h1⟩
    · split at h2
      · rename_i hp
        obtain ⟨m, s1, hs, hm, hk⟩ := ih h2
        refine ⟨c :: m, s1, by simp [hs], ?_, hk⟩
        intro x hx
        rcases List.mem_cons.1 hx with rfl | hx
        · exact hp
        · exact hm x hx
      · cases h2

theorem starLazy_complete {α : Type} (p : Char → Bool) (k : Str → Option α) :
    ∀ (m s1 : Str), (∀ x ∈ m, p x = true) → (k s1).isSome = true →
      (starLazy p k (m ++ s1)).isSome = true := by
  intro m
  induction m with
  | nil =>
    intro s1 _ hk
    cases s1 with
    | nil => simpa [starLazy] using hk
    | cons c cs =>
      simp only [List.nil_append, starLazy]
      rw [orElse_isSome, hk]; simp
  | cons c m ih =>
    intro s1 hm hk
    have hc : p c = true := hm c (List.mem_cons_self _ _)
    have := ih s1 (fun x hx => hm x (List.mem_cons_of_mem _ hx)) hk
    simp [starLazy, hc, orElse_isSome, this]

/-- Soundness of the matcher: a successful run is a declarative match followed by a
successful continuation. -/
theorem run_sound {α : Type} (n : Nat) (r : Regex) :
    ∀ (k : Str → Caps → Option α) (s : Str) (c : Caps) (v : α),
      r.run n k s c = some v → ∃ s1 c1, Matches n r s c s1 c1 ∧ k s1 c1 = some v := by
  induction r with
  | empty => intro k s c v h; exact ⟨s, c, ⟨rfl, rfl⟩, h⟩
  | cls cs =>
    intro k s c v h
    cases s with
    | nil => simp [Regex.run] at h
    | cons x xs =>
      simp only [Regex.run] at h
      split at h
      · rename_i hx; exact ⟨xs, c, ⟨x, rfl, hx, rfl⟩, h⟩
      · cases h
  | seq a b iha ihb =>
    intro k s c v h
    simp only [Regex.run] at h
    obtain ⟨s2, c2, h1, h2⟩ := iha _ s c v h
    obtain ⟨s1, c1, h3, h4⟩ := ihb _ s2 c2 v h2
    exact ⟨s1, c1, ⟨s2, c2, h1, h3⟩, h4⟩
  | alt a b iha ihb =>
    intro k s c v h
    simp only [Regex.run] at h
    rcases orElse_eq_some h with h1 | ⟨_, h2⟩
    · obtain ⟨s1, c1, h3, h4⟩ := iha _ s c v h1
      exact ⟨s1, c1, Or.inl h3, h4⟩
    · obtain ⟨s1, c1, h3, h4⟩ := ihb _ s c v h2
      exact ⟨s1, c1, Or.inr h3, h4⟩
  | opt a iha =>
    intro k s c v h
    simp only [Regex.run] at h
    rcases orElse_eq_some h with h1 | ⟨_, h2⟩
    · obtain ⟨s1, c1, h3, h4⟩ := iha _ s c v h1
      exact ⟨s1, c1, Or.inl h3, h4⟩
    · exact ⟨s, c, Or.inr ⟨rfl, rfl⟩, h2⟩
  | star cs =>
    intro k s c v h
    simp only [Regex.run] at h
    obtain ⟨m, s1, hs, hm, hk⟩ := starGreedy_sound _ _ v s h
    exact ⟨s1, c, ⟨m, hs, hm, rfl⟩, hk⟩
  | lazyStar cs =>
    intro k s c v h
    simp only [Regex.run] at h
    obtain ⟨m, s1, hs, hm, hk⟩ := starLazy_sound _ _ v s h
    exact ⟨s1, c, ⟨m, hs, hm, rfl⟩, hk⟩
  | plus cs =>
    intro k s c v h
    cases s with
    | nil => simp [Regex.run] at h
    | cons x xs =>
      simp only [Regex.run] at h
      split at h
      · rename_i hx
        obtain ⟨m, s1, hs, hm, hk⟩ := starGreedy_sound _ _ v xs h
        refine ⟨s1, c, ⟨x :: m, by simp, by simp [hs], ?_, rfl⟩, hk⟩
        intro y hy
        rcases List.mem_cons.1 hy with rfl | hy
        · exact hx
        · exact hm y hy
      · cases h
  | group i a iha =>
    intro k s c v h
    simp only [Regex.run] at h
    obtain ⟨s1, c1, h3, h4⟩ := iha _ s c v h
    exact ⟨s1, _, ⟨c1, h3, rfl⟩, h4⟩
  | bos =>
    intro k s c v h
    simp only [Regex.run] at h
    split at h
    · rename_i hn; exact ⟨s, c, ⟨hn, rfl, rfl⟩, h⟩
    · cases h
  | eos =>
    intro k s c v h
    cases s with
    | nil => exact ⟨[], c, ⟨rfl, rfl, rfl⟩, h⟩
    | cons x xs => simp [Regex.run] at h

/-- Completeness of the matcher: when some declarative match is followed by a successful
continuation, the run succeeds (possibly with another match of higher priority). -/
theorem run_complete {α : Type} (n : Nat) (r : Regex) :
    ∀ (k : Str → Caps → Option α) (s : Str) (c : Caps) (s1 : Str) (c1 : Caps),
      Matches n r s c s1 c1 → (k s1 c1).isSome = true → (r.run n k s c).isSome = true := by
  induction r with
  | empty =>
    intro k s c s1 c1 h hk
    obtain ⟨rfl, rfl⟩ := h
    exact hk
  | cls cs =>
    intro k s c s1 c1 h hk
    obtain ⟨x, rfl, hx, rfl⟩ := h
    simp [Regex.run, hx, hk]
  | seq a b iha ihb =>
    intro k s c s1 c1 h hk
    obtain ⟨s2, c2, h1, h2⟩ := h
    simp only [Regex.run]
    exact iha _ s c s2 c2 h1 (ihb k s2 c2 s1 c1 h2 hk)
  | alt a b iha ihb =>
    intro k s c s1 c1 h hk
    simp only [Regex.run, orElse_isSome]
    rcases h with h | h
    · simp [iha k s c s1 c1 h hk]
    · simp [ihb k s c s1 c1 h hk]
  | opt a iha =>
    intro k s c s1 c1 h hk
    simp only [Regex.run, orElse_isSome]
    rcases h with h | ⟨rfl, rfl⟩
    · simp [iha k s c s1 c1 h hk]
    · simp [hk]
  | star cs =>
    intro k s c s1 c1 h hk
    obtain ⟨m, rfl, hm, rfl⟩ := h
    simp only [Regex.run]
    exact starGreedy_complete _ _ m s1 hm hk
  | lazyStar cs =>
    intro k s c s1 c1 h hk
    obtain ⟨m, rfl, hm, rfl⟩ := h
    simp only [Regex.run]
    exact starLazy_complete _ _ m s1 hm hk
  | plus cs =>
    intro k s c s1 c1 h hk
    obtain ⟨m, hne, rfl, hm, rfl⟩ := h
    cases m with
    | nil => exact absurd rfl hne
    | cons x m =>
      have hx : cs.test x = true := hm x (List.mem_cons_self _ _)
      simp only [List.cons_append, Regex.run, hx, if_true]
      exact starGreedy_complete _ _ m s1 (fun y hy => hm y (List.mem_cons_of_mem _ hy)) hk
  | group i a iha =>
    intro k s c s1 c1 h hk
    obtain ⟨c2, h1, rfl⟩ := h
    simp only [Regex.run]
    exact iha _ s c s1 c2 h1 hk
  | bos =>
    intro k s c s1 c1 h hk
    obtain ⟨hn, rfl, rfl⟩ := h
    simp [Regex.run, hn, hk]
  | eos =>
    intro k s c s1 c1 h hk
    obtain ⟨rfl, rfl, rfl⟩ := h
    simpa [Regex.run] using hk

theorem matches_suffix (n : Nat) (r : Regex) :
    ∀ (s : Str) (c : Caps) (s1 : Str) (c1 : Caps), Matches n r s c s1 c1 → ∃ m, s = m ++ s1 := by
  induction r with
  | empty => intro s c s1 c1 h; exact ⟨[], by simp [h.1]⟩
  | cls cs => intro s c s1 c1 h; obtain ⟨x, rfl, _, _⟩ := h; exact ⟨[x], rfl⟩
  | seq a b iha ihb =>
    intro s c s1 c1 h
    obtain ⟨s2, c2, h1, h2⟩ := h
    obtain ⟨m1, rfl⟩ := iha _ _ _ _ h1
    obtain ⟨m2, rfl⟩ := ihb _ _ _ _ h2
    exact ⟨m1 ++ m2, by simp⟩
  | alt a b iha ihb =>
    intro s c s1 c1 h
    rcases h with h | h
    · exact iha _ _ _ _ h
    · exact ihb _ _ _ _ h
  | opt a iha =>
    intro s c s1 c1 h
    rcases h with h | ⟨rfl, _⟩
    · exact iha _ _ _ _ h
    · exact ⟨[], rfl⟩
  | star cs => intro s c s1 c1 h; obtain ⟨m, hs, _⟩ := h; exact ⟨m, hs⟩
  | lazyStar cs => intro s c s1 c1 h; obtain ⟨m, hs, _⟩ := h; exact ⟨m, hs⟩
  | plus cs => intro s c s1 c1 h; obtain ⟨m, _, hs, _⟩ := h; exact ⟨m, hs⟩
  | group i a iha => intro s c s1 c1 h; obtain ⟨c2, h1, _⟩ := h; exact iha _ _ _ _ h1
  | bos => intro s c s1 c1 h; exact ⟨[], by simp [h.2.1]⟩
  | eos => intro s c s1 c1 h; exact ⟨[], by simp [h.1, h.2.1]⟩

/-- Soundness of the search: a result is a declarative match at some suffix. -/
theorem searchFrom_sound (r : Regex) (n : Nat) (v : MatchResult) :
    ∀ suf, searchFrom r n suf = some v →
      ∃ pre s0 s1 c1, suf = pre ++ s0 ∧ Matches n r s0 [] s1 c1 ∧
        v = ⟨n - s0.length, n - s1.length, c1⟩ := by
  intro suf
  induction suf with
  | nil =>
    intro h
    simp only [searchFrom] at h
    obtain ⟨s1, c1, hm, hk⟩ := run_sound n r _ _ _ v h
    exact ⟨[], [], s1, c1, rfl, hm, by simpa using (Option.some.inj hk).symm⟩
  | cons x xs ih =>
    intro h
    simp only [searchFrom] at h
    rcases orElse_eq_some h with h1 | ⟨_, h2⟩
    · obtain ⟨s1, c1, hm, hk⟩ := run_sound n r _ _ _ v h1
      exact ⟨[], x :: xs, s1, c1, rfl, hm, (Option.some.inj hk).symm⟩
    · obtain ⟨pre, s0, s1, c1, hs, hm, hv⟩ := ih h2
      exact ⟨x :: pre, s0, s1, c1, by simp [hs], hm, hv⟩

/-- Completeness of the search: a declarative match at some suffix makes it succeed. -/
theorem searchFrom_complete (r : Regex) (n : Nat) :
    ∀ (pre s0 s1 : Str) (c1 : Caps), Matches n r s0 [] s1 c1 →
      (searchFrom r n (pre ++ s0)).isSome = true := by
  intro pre
  induction pre with
  | nil =>
    intro s0 s1 c1 hm
    cases s0 with
    | nil =>
      simp only [List.nil_append, searchFrom]
      exact run_complete n r _ _ _ _ _ hm rfl
    | cons x xs =>
      simp only [List.nil_append, searchFrom, orElse_isSome]
      have h := run_complete n r
        (fun s1 c1 => some (MatchResult.mk (n - (x :: xs).length) (n - s1.length) c1))
        (x :: xs) [] s1 c1 hm rfl
      rw [h]
      rfl
  | cons x pre ih =>
    intro s0 s1 c1 hm
    have h := ih s0 s1 c1 hm
    rw [List.cons_append]
    simp only [searchFrom, orElse_isSome, h, Bool.or_true]

theorem test_iff (r : Regex) (text : Str) :
    r.test text = true ↔
      ∃ pre s0 s1 c1, text = pre ++ s0 ∧ Matches text.length r s0 [] s1 c1 := by
  constructor
  · intro h
    simp only [Regex.test, Regex.exec, Option.isSome_iff_exists] at h
    obtain ⟨v, hv⟩ := h
    obtain ⟨pre, s0, s1, c1, hs, hm, _⟩ := searchFrom_sound r _ v _ hv
    exact ⟨pre, s0, s1, c1, hs, hm⟩
  · rintro ⟨pre, s0, s1, c1, hs, hm⟩
    simp only [Regex.test, Regex.exec]
    have := searchFrom_complete r text.length pre s0 s1 c1 hm
    rw [← hs] at this
    exact this

theorem foldCase_append (a b : Str) : foldCase (a ++ b) = foldCase a ++ foldCase b := by
  simp [foldCase]

theorem matches_literals (n : Nat) (r : Regex) :
    ∀ (L : List Str), literals r = some L → ∀ (s : Str) (c : Caps) (s1 : Str) (c1 : Caps),
      Matches n r s c s1 c1 → ∃ m, s = m ++ s1 ∧ foldCase m ∈ L := by
  induction r with
  | empty =>
    intro L hL s c s1 c1 h
    simp only [literals, Option.some.injEq] at hL
    subst hL
    exact ⟨[], by simp [h.1], by simp [foldCase]⟩
  | cls cs =>
    intro L hL s c s1 c1 h
    cases cs with
    | lit p =>
      simp only [literals, Option.some.injEq] at hL
      subst hL
      obtain ⟨x, rfl, hx, _⟩ := h
      refine ⟨[x], rfl, ?_⟩
      simp only [CharSet.test, beq_iff_eq] at hx
      simp [foldCase, hx]
    | dot => simp [literals] at hL
    | digit => simp [literals] at hL
    | notDigit => simp [literals] at hL
  | seq a b iha ihb =>
    intro L hL s c s1 c1 h
    simp only [literals] at hL
    split at hL
    · rename_i la lb ha hb
      simp only [Option.some.injEq] at hL
      subst hL
      obtain ⟨s2, c2, h1, h2⟩ := h
      obtain ⟨m1, rfl, hm1⟩ := iha la ha _ _ _ _ h1
      obtain ⟨m2, rfl, hm2⟩ := ihb lb hb _ _ _ _ h2
      refine ⟨m1 ++ m2, by simp, ?_⟩
      rw [foldCase_append, List.mem_flatMap]
      exact ⟨_, hm1, List.mem_map.2 ⟨_, hm2, rfl⟩⟩
    · cases hL
  | alt a b iha ihb =>
    intro L hL s c s1 c1 h
    simp only [literals] at hL
    split at hL
    · rename_i la lb ha hb
      simp only [Option.some.injEq] at hL
      subst hL
      rcases h with h | h
      · obtain ⟨m, hs, hm⟩ := iha la ha _ _ _ _ h
        exact ⟨m, hs, List.mem_append_left _ hm⟩
      · obtain ⟨m, hs, hm⟩ := ihb lb hb _ _ _ _ h
        exact ⟨m, hs, List.mem_append_right _ hm⟩
    · cases hL
  | opt a iha =>
    intro L hL s c s1 c1 h
    simp only [literals] at hL
    split at hL
    · rename_i la ha
      simp only [Option.some.injEq] at hL
      subst hL
      rcases h with h | ⟨rfl, _⟩
      · obtain ⟨m, hs, hm⟩ := iha la ha _ _ _ _ h
        exact ⟨m, hs, List.mem_append_left _ hm⟩
      · exact ⟨[], rfl, by simp [foldCase]⟩
    · cases hL
  | star cs => intro L hL; simp [literals] at hL
  | lazyStar cs => intro L hL; simp [literals] at hL
  | plus cs => intro L hL; simp [literals] at hL
  | group i a iha =>
    intro L hL s c s1 c1 h
    simp only [literals] at hL
    obtain ⟨c2, h1, _⟩ := h
    exact iha L hL _ _ _ _ h1
  | bos => intro L hL; simp [literals] at hL
  | eos => intro L hL; simp [literals] at hL

theorem literals_matches (n : Nat) (r : Regex) :
    ∀ (L : List Str), literals r = some L → ∀ (m s1 : Str) (c : Caps),
      foldCase m ∈ L → ∃ c1, Matches n r (m ++ s1) c s1 c1 := by
  induction r with
  | empty =>
    intro L hL m s1 c hm
    simp only [literals, Option.some.injEq] at hL
    subst hL
    have : m = [] := by simpa [foldCase] using hm
    subst this
    exact ⟨c, rfl, rfl⟩
  | cls cs =>
    intro L hL m s1 c hm
    cases cs with
    | lit p =>
      simp only [literals, Option.some.injEq] at hL
      subst hL
      simp only [List.mem_singleton] at hm
      match m, hm with
      | [x], hm =>
        simp only [foldCase, List.map_cons, List.map_nil, List.cons.injEq, and_true] at hm
        exact ⟨c, x, rfl, by simp [CharSet.test, hm], rfl⟩
      | [], hm => simp [foldCase] at hm
      | _ :: _ :: _, hm => simp [foldCase] at hm
    | dot => simp [literals] at hL
    | digit => simp [literals] at hL
    | notDigit => simp [literals] at hL
  | seq a b iha ihb =>
    intro L hL m s1 c hm
    simp only [literals] at hL
    split at hL
    · rename_i la lb ha hb
      simp only [Option.some.injEq] at hL
      subst hL
      rw [List.mem_flatMap] at hm
      obtain ⟨x, hx, hm⟩ := hm
      obtain ⟨y, hy, hxy⟩ := List.mem_map.1 hm
      simp only [foldCase] at hxy
      obtain ⟨m1, m2, rfl, h1, h2⟩ := List.map_eq_append_iff.1 hxy.symm
      subst h1 h2
      obtain ⟨c2, hc2⟩ := iha la ha m1 (m2 ++ s1) c hx
      obtain ⟨c1, hc1⟩ := ihb lb hb m2 s1 c2 hy
      exact ⟨c1, m2 ++ s1, c2, by simpa using hc2, hc1⟩
    · cases hL
  | alt a b iha ihb =>
    intro L hL m s1 c hm
    simp only [literals] at hL
    split at hL
    · rename_i la lb ha hb
      simp only [Option.some.injEq] at hL
      subst hL
      rcases List.mem_append.1 hm with h | h
      · obtain ⟨c1, hc1⟩ := iha la ha m s1 c h
        exact ⟨c1, Or.inl hc1⟩
      · obtain ⟨c1, hc1⟩ := ihb lb hb m s1 c h
        exact ⟨c1, Or.inr hc1⟩
    · cases hL
  | opt a iha =>
    intro L hL m s1 c hm
    simp only [literals] at hL
    split at hL
    · rename_i la ha
      simp only [Option.some.injEq] at hL
      subst hL
      rcases List.mem_append.1 hm with h | h
      · obtain ⟨c1, hc1⟩ := iha la ha m s1 c h
        exact ⟨c1, Or.inl hc1⟩
      · have : m = [] := by simpa [foldCase] using h
        subst this
        exact ⟨c, Or.inr ⟨rfl, rfl⟩⟩
    · cases hL
  | star cs => intro L hL; simp [literals] at hL
  | lazyStar cs => intro L hL; simp [literals] at hL
  | plus cs => intro L hL; simp [literals] at hL
  | group i a iha =>
    intro L hL m s1 c hm
    simp only [literals] at hL
    obtain ⟨c2, hc2⟩ := iha L hL m s1 c hm
    exact ⟨_, c2, hc2, rfl⟩
  | bos => intro L hL; simp [literals] at hL
  | eos => intro L hL; simp [literals] at hL

theorem includes_iff (text part : Str) : includes text part = true ↔ part <:+: text := by
  simp only [includes, List.any_eq_true, List.mem_tails, List.isPrefixOf_iff_prefix]
  constructor
  · rintro ⟨t, ht, hp⟩
    exact List.IsPrefix.isInfix hp |>.trans ht.isInfix
  · rintro ⟨a, b, rfl⟩
    exact ⟨part ++ b, ⟨a, by simp⟩, List.prefix_append _ _⟩

/-- A pattern of literals tests true exactly on the texts that contain one of its
literals, ignoring case. -/
theorem test_eq_containsAny (r : Regex) (L : List Str) (hL : literals r = some L) (text : Str) :
    r.test text = containsAny text L := by
  rw [Bool.eq_iff_iff, test_iff]
  simp only [containsAny, List.any_eq_true, includes_iff]
  constructor
  · rintro ⟨pre, s0, s1, c1, rfl, hm⟩
    obtain ⟨m, rfl, hmL⟩ := matches_literals _ r L hL _ _ _ _ hm
    refine ⟨_, hmL, foldCase pre, foldCase s1, ?_⟩
    simp [foldCase_append]
  · rintro ⟨w, hw, a, b, hab⟩
    simp only [foldCase] at hab
    obtain ⟨ab, s1, rfl, h1, rfl⟩ := List.map_eq_append_iff.1 hab.symm
    obtain ⟨pre, m, rfl, rfl, rfl⟩ := List.map_eq_append_iff.1 h1
    obtain ⟨c1, hc1⟩ := literals_matches (pre ++ m ++ s1).length r L hL m s1 [] hw
    exact ⟨pre, m ++ s1, s1, c1, by simp, hc1⟩

theorem insertEvent_perm (env : Env) (e : Event) :
    ∀ l, (insertEvent env e l).Perm (e :: l) := by
  intro l
  induction l with
  | nil => exact List.Perm.refl _
  | cons b l ih =>
    simp only [insertEvent]
    split
    · exact List.Perm.refl _
    · exact (List.Perm.cons b ih).trans (List.Perm.swap e b l)

theorem sortEvents_perm (env : Env) : ∀ l, (sortEvents env l).Perm l := by
  intro l
  induction l with
  | nil => exact List.Perm.refl _
  | cons e l ih =>
    simp only [sortEvents]
    exact (insertEvent_perm env e _).trans (List.Perm.cons e ih)

theorem sortEvents_head_min (env : Env) :
    ∀ (l : List Event), (∀ e ∈ l, ∃ x, env.dateValue e.datetime = some x) →
      ∀ first rest, sortEvents env l = first :: rest → ∀ e ∈ l, NotLater env first e := by
  intro l
  induction l with
  | nil => intro _ first rest h; simp [sortEvents] at h
  | cons b l ih =>
    intro hv first rest h e he
    have hvl : ∀ e ∈ l, ∃ x, env.dateValue e.datetime = some x :=
      fun e he => hv e (List.mem_cons_of_mem _ he)
    obtain ⟨tb, htb⟩ := hv b (List.mem_cons_self _ _)
    simp only [sortEvents] at h
    cases hs : sortEvents env l with
    | nil =>
      have hl : l = [] := by
        have := (sortEvents_perm env l).length_eq
        rw [hs] at this
        exact List.length_eq_zero.1 this.symm
      subst hl
      rw [hs] at h
      simp only [insertEvent, List.cons.injEq] at h
      obtain ⟨rfl, _⟩ := h
      have : e = b := by simpa using he
      subst this
      exact ⟨tb, tb, htb, htb, le_refl _⟩
    | cons h0 r0 =>
      rw [hs] at h
      have ih0 := ih hvl h0 r0 hs
      have hh0 : h0 ∈ l := (sortEvents_perm env l).subset (by rw [hs]; exact List.mem_cons_self _ _)
      obtain ⟨t0, ht0⟩ := hvl h0 hh0
      simp only [insertEvent] at h
      split at h
      · rename_i hsb
        simp only [List.cons.injEq] at h
        obtain ⟨rfl, _⟩ := h
        have hle : tb ≤ t0 := by
          simp only [staysBefore, htb, ht0, decide_eq_true_eq] at hsb
          omega
        rcases List.mem_cons.1 he with rfl | he
        · exact ⟨tb, tb, htb, htb, le_refl _⟩
        · obtain ⟨x, y, hx, hy, hxy⟩ := ih0 e he
          rw [ht0] at hx
          cases hx
          exact ⟨tb, y, htb, hy, le_trans hle hxy⟩
      · rename_i hsb
        simp only [List.cons.injEq] at h
        obtain ⟨rfl, _⟩ := h
        have hle : t0 ≤ tb := by
          simp only [staysBefore, htb, ht0, decide_eq_true_eq] at hsb
          omega
        rcases List.mem_cons.1 he with rfl | he
        · exact ⟨t0, tb, ht0, htb, hle⟩
        · exact ih0 e he

theorem isUpcoming_valid (env : Env) (e : Event) (h : isUpcoming env e = true) :
    ∃ x, env.dateValue e.datetime = some x := by
  simp only [isUpcoming] at h
  split at h
  · rename_i t ht; exact ⟨t, ht⟩
  · cases h

theorem EndsVisible.ne_nil {s : Str} (h : EndsVisible s) : s ≠ [] := by
  obtain ⟨init, c, rfl, _⟩ := h
  simp

theorem trim_endsVisible (x : Str) (h : trim x ≠ []) : EndsVisible (trim x) := by
  have hl := List.rdropWhile_last_not (p := isWhiteSpace) (l := x.dropWhile isWhiteSpace) h
  refine ⟨(trim x).dropLast, (trim x).getLast h, ?_, ?_⟩
  · exact (List.dropLast_append_getLast h).symm
  · simpa [trim] using hl

theorem mem_dropWhile_concat (p : Char → Bool) (c : Char) (hc : p c = false) :
    ∀ init : Str, c ∈ (init ++ [c]).dropWhile p := by
  intro init
  induction init with
  | nil => simp [List.dropWhile, hc]
  | cons a init ih =>
    simp only [List.cons_append, List.dropWhile]
    split
    · exact ih
    · simp

theorem trim_ne_nil_of_endsVisible {s : Str} (h : EndsVisible s) : trim s ≠ [] := by
  obtain ⟨init, c, rfl, hc⟩ := h
  intro hnil
  have := List.rdropWhile_eq_nil_iff.1 hnil c (mem_dropWhile_concat _ c hc init)
  rw [hc] at this
  cases this

theorem toLower_eq_space (x : Char) (h : x.toLower = ' ') : x = ' ' := by
  unfold Char.toLower at h
  simp only at h
  split at h
  · rename_i hx
    exfalso
    generalize x.toNat = n at hx h
    obtain ⟨h1, h2⟩ := hx
    interval_cases n <;> exact absurd h (by decide)
  · exact h

theorem lit_space : lit " " = .cls (.lit ' ') := rfl

/-- Removing a leading word followed by a space: the result is the text itself or the
part of it behind a space. -/
theorem replaceEmpty_leading (g : Regex) (s : Str) :
    replaceEmpty (seqs [.bos, .group 1 g, lit " "]) s = s ∨
      ∃ m, s = m ++ ' ' :: replaceEmpty (seqs [.bos, .group 1 g, lit " "]) s := by
  unfold replaceEmpty
  cases hex : (seqs [.bos, .group 1 g, lit " "]).exec s with
  | none => exact Or.inl rfl
  | some v =>
    right
    obtain ⟨pre, s0, s1, c1, hs, hm, hv⟩ := searchFrom_sound _ _ v _ hex
    simp only [seqs, lit_space, Matches] at hm
    obtain ⟨s2, c2, ⟨hlen, rfl, rfl⟩, s3, c3, ⟨c4, hg, _⟩, x, rfl, hx, _⟩ := hm
    obtain ⟨m, rfl⟩ := matches_suffix _ _ _ _ _ _ hg
    have hpre : pre = [] := by
      have := congrArg List.length hs
      rw [List.length_append] at this
      exact List.length_eq_zero.1 (by omega)
    subst hpre
    simp only [List.nil_append] at hs
    have hx2 : x = ' ' := by
      apply toLower_eq_space
      simpa [CharSet.test] using hx
    subst hx2 hs hv
    refine ⟨m, ?_⟩
    simp only [List.length_append, List.length_cons, Nat.sub_self, List.take_zero, List.nil_append]
    have : m.length + (s1.length + 1) - s1.length = (m ++ [' ']).length := by
      simp; omega
    rw [this, show m ++ ' ' :: s1 = (m ++ [' ']) ++ s1 by simp, List.drop_left]
    simp

theorem space_isWhiteSpace : isWhiteSpace ' ' = true := by decide

theorem replaceEmpty_leading_endsVisible (g : Regex) (s : Str) (h : EndsVisible s) :
    EndsVisible (replaceEmpty (seqs [.bos, .group 1 g, lit " "]) s) := by
  rcases replaceEmpty_leading g s with heq | ⟨m, hm⟩
  · rw [heq]; exact h
  · generalize replaceEmpty (seqs [.bos, .group 1 g, lit " "]) s = t at hm
    obtain ⟨init, c, hs, hc⟩ := h
    rcases List.eq_nil_or_concat' t with rfl | ⟨t0, d, rfl⟩
    · rw [hs] at hm
      have : c = ' ' := by
        have := congrArg List.getLast? hm
        simpa using this
      rw [this, space_isWhiteSpace] at hc
      cases hc
    · refine ⟨t0, d, rfl, ?_⟩
      rw [hs] at hm
      have : c = d := by
        rw [show m ++ ' ' :: (t0 ++ [d]) = (m ++ ' ' :: t0) ++ [d] by simp] at hm
        have := congrArg List.getLast? hm
        simpa only [List.getLast?_append, List.getLast?_singleton, Option.or,
          Option.some.injEq] using this
      rw [← this]; exact hc

theorem cleanTitle_ne_nil (env : Env) (s : Str) (h : EndsVisible s) :
    cleanTitle env s ≠ [] := by
  have h1 := (replaceEmpty_leading_endsVisible (words ["a", "an", "the"]) s h).ne_nil
  unfold cleanTitle
  simp only
  change replaceEmpty articlePattern s ≠ [] at h1
  cases hr : replaceEmpty articlePattern s with
  | nil => exact absurd hr h1
  | cons a l =>
    simp only [List.take_succ_cons, List.take_zero, toUpperCase, List.flatMap_cons,
      List.flatMap_nil, List.append_nil]
    split <;> simp

theorem cleanLocation_ne_nil (s : Str) (h : EndsVisible s) : cleanLocation s ≠ [] :=
  trim_ne_nil_of_endsVisible (replaceEmpty_leading_endsVisible (words ["the", "my", "our"]) s h)

theorem extractFromPattern_trimmed (text : Str) (p : Regex) (v : Str)
    (h : extractFromPattern text p = some v) : ∃ x, v = trim x := by
  unfold extractFromPattern at h
  split at h
  · cases h
  · rename_i m _
    cases hg : m.group 1 with
    | none => rw [hg] at h; cases h
    | some x => rw [hg] at h; exact ⟨x, by simpa using h.symm⟩

theorem orString_endsVisible (e : Option Str) (b : Str) (hb : EndsVisible b)
    (he : ∀ v, e = some v → ∃ x, v = trim x) : EndsVisible (orString e b) := by
  unfold orString
  split
  · rename_i c cs
    obtain ⟨x, hx⟩ := he _ rfl
    rw [hx]
    apply trim_endsVisible
    rw [← hx]; simp
  · exact hb

theorem orString_ne_nil (e : Option Str) (b : Str) (hb : b ≠ []) : orString e b ≠ [] := by
  unfold orString
  split
  · simp
  · exact hb

theorem endsVisible_of_trim_eq (s : Str) (hs : s ≠ []) (ht : trim s = s) : EndsVisible s := by
  rw [← ht]; exact trim_endsVisible s (by rw [ht]; exact hs)

theorem extractTitle_endsVisible (t : Str) : EndsVisible (extractTitle t) := by
  unfold extractTitle
  apply orString_endsVisible _ _ _ (extractFromPattern_trimmed _ _)
  apply orString_endsVisible _ _ _ (extractFromPattern_trimmed _ _)
  exact ⟨"General Maintenanc".toList, 'e', by decide, by decide⟩

theorem extractLocation_endsVisible (t : Str) : EndsVisible (extractLocation t) := by
  unfold extractLocation
  apply orString_endsVisible _ _ _ (extractFromPattern_trimmed _ _)
  apply orString_endsVisible _ _ _ (extractFromPattern_trimmed _ _)
  exact ⟨"Not specifie".toList, 'd', by decide, by decide⟩

theorem matches_groupFree (n : Nat) (r : Regex) :
    groupFree r = true → ∀ (s : Str) (c : Caps) (s1 : Str) (c1 : Caps),
      Matches n r s c s1 c1 → c1 = c := by
  induction r with
  | empty => intro _ s c s1 c1 h; exact h.2
  | cls cs => intro _ s c s1 c1 h; obtain ⟨_, _, _, h⟩ := h; exact h
  | seq a b iha ihb =>
    intro hg s c s1 c1 h
    simp only [groupFree, Bool.and_eq_true] at hg
    obtain ⟨s2, c2, h1, h2⟩ := h
    rw [ihb hg.2 _ _ _ _ h2, iha hg.1 _ _ _ _ h1]
  | alt a b iha ihb =>
    intro hg s c s1 c1 h
    simp only [groupFree, Bool.and_eq_true] at hg
    rcases h with h | h
    · exact iha hg.1 _ _ _ _ h
    · exact ihb hg.2 _ _ _ _ h
  | opt a iha =>
    intro hg s c s1 c1 h
    simp only [groupFree] at hg
    rcases h with h | ⟨_, h⟩
    · exact iha hg _ _ _ _ h
    · exact h
  | star cs => intro _ s c s1 c1 h; obtain ⟨_, _, _, h⟩ := h; exact h
  | lazyStar cs => intro _ s c s1 c1 h; obtain ⟨_, _, _, h⟩ := h; exact h
  | plus cs => intro _ s c s1 c1 h; obtain ⟨_, _, _, _, h⟩ := h; exact h
  | group i a _ => intro hg; simp [groupFree] at hg
  | bos => intro _ s c s1 c1 h; exact h.2.2
  | eos => intro _ s c s1 c1 h; exact h.2.2

theorem take_length_sub (d s1 : Str) : (d ++ s1).take ((d ++ s1).length - s1.length) = d := by
  simp

theorem statusShape1_digits (n : Nat) (a b : Regex) (ha : groupFree a = true)
    (hb : groupFree b = true) (s0 s1 : Str) (c1 : Caps)
    (h : Matches n (seqs [a, .lazyStar .dot, b, .star .notDigit, .group 1 (.plus .digit)])
      s0 [] s1 c1) :
    ∃ d, c1 = [(1, d)] ∧ d ≠ [] ∧ (∀ x ∈ d, x.isDigit = true) ∧ d <:+: s0 := by
  simp only [seqs, Matches] at h
  obtain ⟨s2, c2, hw1, s3, c3, ⟨m2, hs2, _, rfl⟩, s4, c4, hw2, s5, c5, ⟨m4, hs4, _, rfl⟩,
    c6, ⟨d, hd, rfl, hdig, rfl⟩, rfl⟩ := h
  obtain ⟨m1, hs0⟩ := matches_suffix n _ _ _ _ _ hw1
  obtain ⟨m3, hs3⟩ := matches_suffix n _ _ _ _ _ hw2
  have e1 := matches_groupFree n _ ha _ _ _ _ hw1
  have e2 := matches_groupFree n _ hb _ _ _ _ hw2
  subst e1 e2
  refine ⟨d, by rw [take_length_sub], hd, by simpa [CharSet.test] using hdig,
    m1 ++ m2 ++ m3 ++ m4, s1, ?_⟩
  rw [hs0, hs2, hs3, hs4]
  simp

theorem statusShape2_digits (n : Nat) (a b : Regex) (ha : groupFree a = true)
    (hb : groupFree b = true) (s0 s1 : Str) (c1 : Caps)
    (h : Matches n (seqs [a, .star .notDigit, .group 1 (.plus .digit), .lazyStar .dot, b])
      s0 [] s1 c1) :
    ∃ d, c1 = [(1, d)] ∧ d ≠ [] ∧ (∀ x ∈ d, x.isDigit = true) ∧ d <:+: s0 := by
  simp only [seqs, Matches] at h
  obtain ⟨s2, c2, hw1, s3, c3, ⟨m2, hs2, _, rfl⟩, s4, c4,
    ⟨c6, ⟨d, hd, rfl, hdig, rfl⟩, rfl⟩, s5, c5, ⟨m4, hs4, _, rfl⟩, hw2⟩ := h
  obtain ⟨m1, hs0⟩ := matches_suffix n _ _ _ _ _ hw1
  have e1 := matches_groupFree n _ ha _ _ _ _ hw1
  have e2 := matches_groupFree n _ hb _ _ _ _ hw2
  subst e1 e2
  refine ⟨d, by rw [take_length_sub], hd, by simpa [CharSet.test] using hdig,
    m1 ++ m2, s4, ?_⟩
  rw [hs0, hs2]
  simp

/-- The ticket id taken from a status query is the first capture of the match, a
non-empty string of decimal digits that occurs in the command. -/
theorem ticketStatusMatch_digits (command : Str) (m : MatchResult)
    (h : ticketStatusMatch command = some m) :
    ticketIdOf m ≠ [] ∧ (∀ x ∈ ticketIdOf m, x.isDigit = true) ∧
      m.group 1 = some (ticketIdOf m) ∧ ticketIdOf m <:+: command := by
  have key : ∃ d, m.caps = [(1, d)] ∧ d ≠ [] ∧ (∀ x ∈ d, x.isDigit = true) ∧
      d <:+: command := by
    unfold ticketStatusMatch at h
    rcases orElse_eq_some h with h1 | ⟨_, h2⟩
    · obtain ⟨pre, s0, s1, c1, hs, hm, rfl⟩ := searchFrom_sound _ _ m _ h1
      obtain ⟨d, h1, h2, h3, h4⟩ :=
        statusShape1_digits _ _ _ (by decide) (by decide) _ _ _ hm
      exact ⟨d, h1, h2, h3, h4.trans ⟨pre, [], by simp [hs]⟩⟩
    · obtain ⟨pre, s0, s1, c1, hs, hm, rfl⟩ := searchFrom_sound _ _ m _ h2
      obtain ⟨d, h1, h2, h3, h4⟩ :=
        statusShape2_digits _ _ _ (by decide) (by decide) _ _ _ hm
      exact ⟨d, h1, h2, h3, h4.trans ⟨pre, [], by simp [hs]⟩⟩
  obtain ⟨d, hc, hd, hdig, hin⟩ := key
  have hg : m.group 1 = some d := by simp [MatchResult.group, hc]
  have hid : ticketIdOf m = d := by simp [ticketIdOf, hg]
  rw [hid]
  exact ⟨hd, hdig, hg, hin⟩

theorem ticketStatusMatch_eq_none (command : Str) :
    ticketStatusMatch command = none ↔
      statusPattern1.test command = false ∧ statusPattern2.test command = false := by
  unfold ticketStatusMatch Regex.test
  cases statusPattern1.exec command <;> cases statusPattern2.exec command <;> simp [orElse]

theorem ticketStatusMatch_isSome (command : Str)
    (h : statusPattern1.test command = true ∨ statusPattern2.test command = true) :
    ∃ m, ticketStatusMatch command = some m := by
  cases hm : ticketStatusMatch command with
  | some m => exact ⟨m, rfl⟩
  | none =>
    have := (ticketStatusMatch_eq_none command).1 hm
    rcases h with h | h
    · rw [this.1] at h; cases h
    · rw [this.2] at h; cases h

/-- C1: the transcript is dispatched to one intent, chosen on its lower-cased form in the
order status query, ticket creation, event query, help, fallback: a match of a status
pattern starts the ticket-status handler with the captured digits whatever else the
transcript contains; otherwise a creation trigger starts ticket creation whatever event
or help trigger is present; otherwise an event trigger wins over help; otherwise help;
otherwise the fallback utterance. -/
theorem processVoiceCommand_dispatch_order (env : Env) (transcript : Str) :
    ((statusPattern1.test (toLowerCase env transcript) = true ∨
        statusPattern2.test (toLowerCase env transcript) = true) →
      ∃ m, ticketStatusMatch (toLowerCase env transcript) = some m ∧
        m.group 1 = some (ticketIdOf m) ∧ ticketIdOf m ≠ [] ∧
        (∀ x ∈ ticketIdOf m, x.isDigit = true) ∧
        processVoiceCommand env transcript = handleTicketStatus env (ticketIdOf m)) ∧
    (statusPattern1.test (toLowerCase env transcript) = false →
      statusPattern2.test (toLowerCase env transcript) = false →
      (includes (toLowerCase env transcript) "create a new ticket".toList = true ∨
        includes (toLowerCase env transcript) "report an issue".toList = true) →
      processVoiceCommand env transcript =
        (handleNewTicket env (toLowerCase env transcript)).effects) ∧
    (statusPattern1.test (toLowerCase env transcript) = false →
      statusPattern2.test (toLowerCase env transcript) = false →
      includes (toLowerCase env transcript) "create a new ticket".toList = false →
      includes (toLowerCase env transcript) "report an issue".toList = false →
      (includes (toLowerCase env transcript) "upcoming events".toList = true ∨
        includes (toLowerCase env transcript) "what events are coming up".toList = true) →
      processVoiceCommand env transcript = handleEventQuery env) ∧
    (statusPattern1.test (toLowerCase env transcript) = false →
      statusPattern2.test (toLowerCase env transcript) = false →
      includes (toLowerCase env transcript) "create a new ticket".toList = false →
      includes (toLowerCase env transcript) "report an issue".toList = false →
      includes (toLowerCase env transcript) "upcoming events".toList = false →
      includes (toLowerCase env transcript) "what events are coming up".toList = false →
      (includes (toLowerCase env transcript) "help".toList = true ∨
        includes (toLowerCase env transcript) "what can you do".toList = true) →
      processVoiceCommand env transcript = showHelp) ∧
    (statusPattern1.test (toLowerCase env transcript) = false →
      statusPattern2.test (toLowerCase env transcript) = false →
      includes (toLowerCase env transcript) "create a new ticket".toList = false →
      includes (toLowerCase env transcript) "report an issue".toList = false →
      includes (toLowerCase env transcript) "upcoming events".toList = false →
      includes (toLowerCase env transcript) "what events are coming up".toList = false →
      includes (toLowerCase env transcript) "help".toList = false →
      includes (toLowerCase env transcript) "what can you do".toList = false →
      processVoiceCommand env transcript = [.speak fallbackText]) := by
  refine ⟨?_, ?_, ?_, ?_, ?_⟩
  · intro h
    obtain ⟨m, hm⟩ := ticketStatusMatch_isSome _ h
    obtain ⟨h1, h2, h3, _⟩ := ticketStatusMatch_digits _ m hm
    exact ⟨m, hm, h3, h1, h2, by simp only [processVoiceCommand, hm]⟩
  · intro h1 h2 h3
    have hn := (ticketStatusMatch_eq_none _).2 ⟨h1, h2⟩
    rcases h3 with h3 | h3 <;>
      simp only [processVoiceCommand, hn, h3, Bool.true_or, Bool.or_true, if_true]
  · intro h1 h2 h3 h4 h5
    have hn := (ticketStatusMatch_eq_none _).2 ⟨h1, h2⟩
    rcases h5 with h5 | h5 <;>
      simp only [processVoiceCommand, hn, h3, h4, h5, Bool.true_or, Bool.or_true, Bool.or_self,
        Bool.false_eq_true, if_true, if_false]
  · intro h1 h2 h3 h4 h5 h6 h7
    have hn := (ticketStatusMatch_eq_none _).2 ⟨h1, h2⟩
    rcases h7 with h7 | h7 <;>
      simp only [processVoiceCommand, hn, h3, h4, h5, h6, h7, Bool.true_or, Bool.or_true,
        Bool.or_self, Bool.false_eq_true, if_true, if_false]
  · intro h1 h2 h3 h4 h5 h6 h7 h8
    have hn := (ticketStatusMatch_eq_none _).2 ⟨h1, h2⟩
    simp only [processVoiceCommand, hn, h3, h4, h5, h6, h7, h8, Bool.or_self,
      Bool.false_eq_true, if_false]

/-- Witness for C1: a status query that also carries a creation, an event and a help
trigger goes to the status handler; a creation request that also carries an event and a
help trigger goes to ticket creation; an event query that also says help goes to the
event handler; a status query written with the Kelvin sign for `k`, which only the
Unicode table lower-cases, goes to the status handler. -/
theorem processVoiceCommand_dispatch_order_witness :
    (∃ m, ticketStatusMatch (toLowerCase sampleEnv
          "Check ticket 42, create a new ticket, upcoming events, help".toList) = some m ∧
        m.group 1 = some (ticketIdOf m) ∧ ticketIdOf m ≠ [] ∧
        (∀ x ∈ ticketIdOf m, x.isDigit = true) ∧
        processVoiceCommand sampleEnv
            "Check ticket 42, create a new ticket, upcoming events, help".toList =
          handleTicketStatus sampleEnv (ticketIdOf m)) ∧
    processVoiceCommand sampleEnv "Report an issue, upcoming events, help".toList =
      (handleNewTicket sampleEnv
        (toLowerCase sampleEnv "Report an issue, upcoming events, help".toList)).effects ∧
    processVoiceCommand sampleEnv "Help me with upcoming events".toList =
      handleEventQuery sampleEnv ∧
    (∃ m, ticketStatusMatch (toLowerCase sampleEnv
          "chec\u212A tic\u212Aet 7, please help".toList) = some m ∧
        m.group 1 = some (ticketIdOf m) ∧ ticketIdOf m ≠ [] ∧
        (∀ x ∈ ticketIdOf m, x.isDigit = true) ∧
        processVoiceCommand sampleEnv "chec\u212A tic\u212Aet 7, please help".toList =
          handleTicketStatus sampleEnv (ticketIdOf m)) :=
  ⟨(processVoiceCommand_dispatch_order sampleEnv
      "Check ticket 42, create a new ticket, upcoming events, help".toList).1
      (Or.inl (by decide)),
   (processVoiceCommand_dispatch_order sampleEnv
      "Report an issue, upcoming events, help".toList).2.1
      (by decide) (by decide) (Or.inr (by decide)),
   (processVoiceCommand_dispatch_order sampleEnv
      "Help me with upcoming events".toList).2.2.1
      (by decide) (by decide) (by decide) (by decide) (Or.inl (by decide)),
   (processVoiceCommand_dispatch_order sampleEnv
      "chec\u212A tic\u212Aet 7, please help".toList).1 (Or.inl (by decide))⟩

/-- C8: a transcript whose lower-cased form matches no status pattern and contains no
trigger phrase produces the fallback utterance and nothing else: one utterance, no
request. -/
theorem processVoiceCommand_fallback (env : Env) (transcript : Str)
    (h1 : statusPattern1.test (toLowerCase env transcript) = false)
    (h2 : statusPattern2.test (toLowerCase env transcript) = false)
    (h3 : includes (toLowerCase env transcript) "create a new ticket".toList = false)
    (h4 : includes (toLowerCase env transcript) "report an issue".toList = false)
    (h5 : includes (toLowerCase env transcript) "upcoming events".toList = false)
    (h6 : includes (toLowerCase env transcript) "what events are coming up".toList = false)
    (h7 : includes (toLowerCase env transcript) "help".toList = false)
    (h8 : includes (toLowerCase env transcript) "what can you do".toList = false) :
    processVoiceCommand env transcript =
      [.speak "I'm not sure how to help with that. Say 'help' to know what I can do.".toList] := by
  have hn := (ticketStatusMatch_eq_none _).2 ⟨h1, h2⟩
  simp only [processVoiceCommand, hn, h3, h4, h5, h6, h7, h8, Bool.or_self,
    Bool.false_eq_true, if_false, fallbackText]

/-- Witness for C8 at the transcript `How do I pay rent?`. -/
theorem processVoiceCommand_fallback_witness :
    processVoiceCommand sampleEnv "How do I pay rent?".toList =
      [.speak "I'm not sure how to help with that. Say 'help' to know what I can do.".toList] :=
  processVoiceCommand_fallback sampleEnv "How do I pay rent?".toList
    (by decide) (by decide) (by decide) (by decide) (by decide) (by decide) (by decide)
    (by decide)

/-- C4: for a transcript whose lower-cased form matches a status pattern, with `D` the
first capture of the match (a non-empty string of digits occurring in the command), and
a ticket list served by `GET /tickets/`: the ticket reported is the first in list order
whose id contains `D`; the final utterance gives its status, its priority and its
assignee when there is one; when no id contains `D` the final utterance is the not-found
sentence for `D`. -/
theorem handleTicketStatus_first_containing (env : Env) (transcript : Str)
    (tickets : List Ticket) (status : Nat)
    (hget : env.getTickets = .response true status (.ok tickets))
    (hmatch : statusPattern1.test (toLowerCase env transcript) = true ∨
      statusPattern2.test (toLowerCase env transcript) = true) :
    ∃ (m : MatchResult) (D : Str),
      orElse (statusPattern1.exec (toLowerCase env transcript))
        (statusPattern2.exec (toLowerCase env transcript)) = some m ∧
      (m.caps.find? (fun p => p.1 == 1)).map (fun p => p.2) = some D ∧
      D ≠ [] ∧ (∀ x ∈ D, x.isDigit = true) ∧ D <:+: toLowerCase env transcript ∧
      ((∀ t ∈ tickets, ¬ D <:+: t.id) →
        processVoiceCommand env transcript =
          [.speak ("Checking status of ticket ".toList ++ D ++ "...".toList),
           .get "/tickets/".toList,
           .speak ("I couldn't find ticket ".toList ++ D ++
             ". Please check the number and try again.".toList)]) ∧
      (∀ (before : List Ticket) (ticket : Ticket) (after : List Ticket),
        tickets = before ++ ticket :: after → (∀ t ∈ before, ¬ D <:+: t.id) →
        D <:+: ticket.id →
        ∃ closing : Str, processVoiceCommand env transcript =
          [.speak ("Checking status of ticket ".toList ++ D ++ "...".toList),
           .get "/tickets/".toList,
           .speak ("Ticket ".toList ++ D ++ " is currently ".toList ++
             toLowerCase env ticket.status ++ ". ".toList ++
             ("It's a priority ".toList ++ ticket.priority ++ " issue. ".toList) ++
             (match ticket.assigned_to with
              | some (a :: as) => "It has been assigned to ".toList ++ (a :: as) ++ ". ".toList
              | _ => []) ++
             closing)]) := by
  obtain ⟨m, hm⟩ := ticketStatusMatch_isSome _ hmatch
  obtain ⟨hne, hdig, hgroup, hin⟩ := ticketStatusMatch_digits _ m hm
  have hrun : processVoiceCommand env transcript = handleTicketStatus env (ticketIdOf m) := by
    simp only [processVoiceCommand, hm]
  refine ⟨m, ticketIdOf m, hm, hgroup, hne, hdig, hin, ?_, ?_⟩
  · intro hnone
    have hfind : tickets.find? (fun t => includes t.id (ticketIdOf m)) = none := by
      rw [List.find?_eq_none]
      intro t ht
      rw [includes_iff]
      simpa using hnone t ht
    rw [hrun]
    simp only [handleTicketStatus, hget, hfind, notFoundText, Bool.not_true, Bool.false_eq_true,
      if_false]
  · intro before ticket after hs hbefore hticket
    have hfind : tickets.find? (fun t => includes t.id (ticketIdOf m)) = some ticket := by
      rw [hs, List.find?_append]
      have h1 : before.find? (fun t => includes t.id (ticketIdOf m)) = none := by
        rw [List.find?_eq_none]
        intro t ht
        rw [includes_iff]
        simpa using hbefore t ht
      have h2 : includes ticket.id (ticketIdOf m) = true := (includes_iff _ _).2 hticket
      rw [h1]
      simp only [List.find?, h2, Option.or]
    rw [hrun]
    simp only [handleTicketStatus, hget, hfind, statusResponse, Bool.not_true, Bool.false_eq_true,
      if_false]
    refine ⟨(if toLowerCase env ticket.status = "resolved".toList ∧
          truthy ticket.resolved_at then
        "This issue was resolved on ".toList ++
          env.toLocaleDateString (ticket.resolved_at.getD []) ++ ".".toList
      else if toLowerCase env ticket.status = "in progress".toList then
        "The team is working on it right now.".toList
      else
        "The team will address it as soon as possible.".toList), ?_⟩
    rcases ticket.assigned_to with _ | (_ | ⟨a, as⟩) <;> simp [truthy]

/-- Witness for C4: in `What's the status of ticket 123 of unit 9?` the capture is `123`;
ticket `5123` precedes ticket `123` in the list, and the query reports ticket `5123`. In
`checK request 7 then check ticket 9`, written with the Kelvin sign, the capture on the
lower-cased form is `7`, which no ticket id contains. -/
theorem handleTicketStatus_first_containing_witness :
    (∃ closing : Str,
      processVoiceCommand sampleEnv "What's the status of ticket 123 of unit 9?".toList =
        [.speak "Checking status of ticket 123...".toList,
         .get "/tickets/".toList,
         .speak ("Ticket 123 is currently in progress. ".toList ++
           "It's a priority P2 issue. ".toList ++
           "It has been assigned to Sam. ".toList ++ closing)]) ∧
    processVoiceCommand sampleEnv "chec\u212A request 7 then check ticket 9".toList =
      [.speak "Checking status of ticket 7...".toList,
       .get "/tickets/".toList,
       .speak "I couldn't find ticket 7. Please check the number and try again.".toList] := by
  refine ⟨?_, ?_⟩
  · obtain ⟨m, D, hm, hD, _, _, _, _, hfound⟩ :=
      handleTicketStatus_first_containing sampleEnv
        "What's the status of ticket 123 of unit 9?".toList sampleTickets 200 rfl
        (Or.inl (by decide))
    have hval : (orElse
        (statusPattern1.exec
          (toLowerCase sampleEnv "What's the status of ticket 123 of unit 9?".toList))
        (statusPattern2.exec
          (toLowerCase sampleEnv "What's the status of ticket 123 of unit 9?".toList))).bind
        (fun m => (m.caps.find? (fun p => p.1 == 1)).map (fun p => p.2)) =
          some "123".toList := by decide
    rw [hm, Option.some_bind, hD] at hval
    have hD2 : D = "123".toList := Option.some.inj hval
    subst hD2
    obtain ⟨closing, h⟩ := hfound [] _ _ rfl (by simp) (by decide)
    exact ⟨closing, h⟩
  · obtain ⟨m, D, hm, hD, _, _, _, hnone, _⟩ :=
      handleTicketStatus_first_containing sampleEnv
        "chec\u212A request 7 then check ticket 9".toList sampleTickets 200 rfl
        (Or.inl (by decide))
    have hval : (orElse
        (statusPattern1.exec
          (toLowerCase sampleEnv "chec\u212A request 7 then check ticket 9".toList))
        (statusPattern2.exec
          (toLowerCase sampleEnv "chec\u212A request 7 then check ticket 9".toList))).bind
        (fun m => (m.caps.find? (fun p => p.1 == 1)).map (fun p => p.2)) =
          some "7".toList := by decide
    rw [hm, Option.some_bind, hD] at hval
    have hD2 : D = "7".toList := Option.some.inj hval
    subst hD2
    exact hnone (by decide)

theorem upcomingEvents_perm (env : Env) (events : List Event) :
    (upcomingEvents env events).Perm (events.filter (isUpcoming env)) :=
  sortEvents_perm env _

theorem isUpcoming_iff (env : Env) (e : Event) :
    isUpcoming env e = true ↔ ∃ t, env.dateValue e.datetime = some t ∧ env.now < t := by
  unfold isUpcoming
  cases h : env.dateValue e.datetime with
  | none => simp
  | some t => simp

/-- C5: for an event list served by `GET /events/` and the current time `now`, let `F` be
the events of the list whose date is valid and strictly later than `now` (the predicate
`later` says so). Exactly one utterance follows the request: the none-scheduled sentence
when `F` is empty; the title and date of the only event when `F` has one; otherwise the
count of `F`, the title and date of an event of `F` that no event of `F` precedes, and
the count less one as the number of further events. -/
theorem handleEventQuery_summary (env : Env) (events : List Event) (ok : Bool) (status : Nat)
    (hget : env.getEvents = .response ok status (.ok events))
    (later : Event → Bool)
    (hlater : ∀ e, later e = true ↔
      ∃ t, env.dateValue e.datetime = some t ∧ env.now < t) :
    (events.filter later = [] →
      handleEventQuery env =
        [.get "/events/".toList,
         .speak "There are no upcoming events scheduled at the moment.".toList]) ∧
    (∀ e, events.filter later = [e] →
      handleEventQuery env =
        [.get "/events/".toList,
         .speak ("There are 1 upcoming events. ".toList ++
           ("The event is ".toList ++ e.title ++ " on ".toList ++
             env.toLocaleDateString e.datetime ++ ".".toList))]) ∧
    (1 < (events.filter later).length →
      ∃ e ∈ events.filter later,
        (∃ t, env.dateValue e.datetime = some t ∧ env.now < t ∧
          ∀ e2 ∈ events.filter later,
            ∃ t2, env.dateValue e2.datetime = some t2 ∧ t ≤ t2) ∧
        handleEventQuery env =
          [.get "/events/".toList,
           .speak ("There are ".toList ++ numText (events.filter later).length ++
             " upcoming events. ".toList ++
             ("The next event is ".toList ++
               (e.title ++ " on ".toList ++ env.toLocaleDateString e.datetime ++ ". ".toList) ++
               ("There are ".toList ++ numText ((events.filter later).length - 1) ++
                 " more events coming up.".toList)))]) := by
  have hfun : later = isUpcoming env := by
    funext e
    rw [Bool.eq_iff_iff, hlater, isUpcoming_iff]
  subst hfun
  have hperm := upcomingEvents_perm env events
  refine ⟨?_, ?_, ?_⟩
  · intro hF
    have hu : upcomingEvents env events = [] := by
      rw [hF] at hperm
      exact List.Perm.eq_nil hperm
    simp only [handleEventQuery, hget, hu, noEventsText]
  · intro e hF
    have hu : upcomingEvents env events = [e] := by
      rw [hF] at hperm
      exact List.perm_singleton.1 hperm
    simp only [handleEventQuery, hget, hu, eventsResponse, List.length_singleton, if_true]
    rfl
  · intro hlen
    have hlen2 := hperm.length_eq
    cases hu : upcomingEvents env events with
    | nil => rw [hu] at hlen2; simp only [List.length_nil] at hlen2; omega
    | cons first rest =>
      have hmem : first ∈ events.filter (isUpcoming env) :=
        hperm.subset (by rw [hu]; exact List.mem_cons_self _ _)
      have hvalid : ∀ e ∈ events.filter (isUpcoming env),
          ∃ x, env.dateValue e.datetime = some x :=
        fun e he => isUpcoming_valid env e (List.mem_filter.1 he).2
      have hmin := sortEvents_head_min env _ hvalid first rest hu
      obtain ⟨t, ht, hnow⟩ := (isUpcoming_iff env first).1 (List.mem_filter.1 hmem).2
      refine ⟨first, hmem, ⟨t, ht, hnow, ?_⟩, ?_⟩
      · intro e2 he2
        obtain ⟨x, y, hx, hy, hxy⟩ := hmin e2 he2
        rw [ht] at hx
        cases hx
        exact ⟨y, hy, hxy⟩
      · have hl : (first :: rest).length = (events.filter (isUpcoming env)).length := by
          rw [← hu]; exact hlen2
        have hne : ¬ (events.filter (isUpcoming env)).length = 1 := by omega
        simp only [handleEventQuery, hget, hu, eventsResponse, hl, hne, if_false, hlen, if_true,
          gt_iff_lt]

/-- Witness for C5: of the three sample events the picnic of day 1 is before now (day 5)
and is left out, yoga (day 20) and the movie (day 10) are upcoming; the utterance counts
two, names the movie and announces one more. -/
theorem handleEventQuery_summary_witness :
    handleEventQuery sampleEnv =
      [.get "/events/".toList,
       .speak ("There are 2 upcoming events. The next event is Movie on 2024-06-10. " ++
         "There are 1 more events coming up.").toList] := by
  obtain ⟨e, he, ⟨t, ht, _, hmin⟩, hq⟩ :=
    (handleEventQuery_summary sampleEnv sampleEvents true 200 rfl
      (fun e => match sampleDateValue e.datetime with
        | some t => decide (5 < t)
        | none => false)
      (isUpcoming_iff sampleEnv)).2.2 (by decide)
  have hF : sampleEvents.filter (fun e => match sampleDateValue e.datetime with
        | some t => decide (5 < t)
        | none => false) =
      [{ title := "Yoga".toList, datetime := "2024-06-20".toList },
       { title := "Movie".toList, datetime := "2024-06-10".toList }] := by decide
  rw [hF] at he hmin hq
  simp only [List.mem_cons, List.mem_singleton, List.not_mem_nil, or_false] at he
  rcases he with rfl | rfl
  · exfalso
    obtain ⟨t2, ht2, hle⟩ := hmin { title := "Movie".toList, datetime := "2024-06-10".toList }
      (by simp)
    have e1 : sampleEnv.dateValue "2024-06-20".toList = some 20 := by decide
    have e2 : sampleEnv.dateValue "2024-06-10".toList = some 10 := by decide
    rw [e1] at ht
    rw [e2] at ht2
    cases ht
    cases ht2
    omega
  · rw [hq]
    decide

theorem createTicket_failed_effects (env : Env) (ticketData : TicketData) (message : Str)
    (h : (createTicket env ticketData).result = .error message) :
    (createTicket env ticketData).effects =
      [.speak "Creating your ticket now...".toList, .post "/tickets/".toList ticketData,
       .speak ("I'm sorry, I encountered an issue while creating your ticket. ".toList ++
         apologyAdvice message)] := by
  unfold createTicket at h ⊢
  simp only at h ⊢
  split at h
  · simp only [Except.error.injEq] at h
    subst h
    rfl
  · split at h
    · simp only [Except.error.injEq] at h
      rename_i hok
      simp only [hok, if_true]
      rw [← h]
      rfl
    · rename_i hok
      split at h
      · simp only [Except.error.injEq] at h
        subst h
        simp only [hok, if_false]
        rfl
      · cases h

theorem apology_not_success (advice : Str) :
    isSuccessUtterance (.speak
      ("I'm sorry, I encountered an issue while creating your ticket. ".toList ++ advice)) =
      false := by
  rfl

/-- C6: when the `POST /tickets/` request fails (the fetch rejects, or the response is
not ok), `createTicket` ends in an error; its last effect is an apology that begins
`I'm sorry, I encountered an issue while creating your ticket. `, spoken after the
request and before the error is raised, and no utterance is the success message. -/
theorem createTicket_failure_apology (env : Env) (ticketData : TicketData)
    (hfail : (∃ message, env.postTickets ticketData = .rejected message) ∨
      (∃ status json, env.postTickets ticketData = .response false status json)) :
    (createTicket env ticketData).result =
        .error (creationError (env.postTickets ticketData)) ∧
    (∃ advice : Str, (createTicket env ticketData).effects =
      [.speak "Creating your ticket now...".toList, .post "/tickets/".toList ticketData,
       .speak ("I'm sorry, I encountered an issue while creating your ticket. ".toList ++
         advice)]) ∧
    (∀ e ∈ (createTicket env ticketData).effects, isSuccessUtterance e = false) := by
  have hres : (createTicket env ticketData).result =
      .error (creationError (env.postTickets ticketData)) := by
    rcases hfail with ⟨message, h⟩ | ⟨status, json, h⟩
    · simp only [createTicket, h, creationError]
    · simp only [createTicket, h, creationError, Bool.not_false, if_true]
  have heff := createTicket_failed_effects env ticketData _ hres
  refine ⟨hres, ⟨_, heff⟩, ?_⟩
  intro e he
  rw [heff] at he
  simp only [List.mem_cons, List.mem_singleton, List.not_mem_nil, or_false] at he
  rcases he with rfl | rfl | rfl
  · rfl
  · rfl
  · exact apology_not_success _

/-- Witness for C6: a rejected request and a response with status 500. -/
theorem createTicket_failure_apology_witness :
    ((createTicket offlineEnv sampleData).result =
        .error (creationError (offlineEnv.postTickets sampleData)) ∧
      (∃ advice : Str, (createTicket offlineEnv sampleData).effects =
        [.speak "Creating your ticket now...".toList, .post "/tickets/".toList sampleData,
         .speak ("I'm sorry, I encountered an issue while creating your ticket. ".toList ++
           advice)]) ∧
      (∀ e ∈ (createTicket offlineEnv sampleData).effects, isSuccessUtterance e = false)) ∧
    ((createTicket sampleEnv sampleData).result =
        .error (creationError (sampleEnv.postTickets sampleData)) ∧
      (∃ advice : Str, (createTicket sampleEnv sampleData).effects =
        [.speak "Creating your ticket now...".toList, .post "/tickets/".toList sampleData,
         .speak ("I'm sorry, I encountered an issue while creating your ticket. ".toList ++
           advice)]) ∧
      (∀ e ∈ (createTicket sampleEnv sampleData).effects, isSuccessUtterance e = false)) :=
  ⟨createTicket_failure_apology offlineEnv sampleData (Or.inl ⟨_, rfl⟩),
   createTicket_failure_apology sampleEnv sampleData (Or.inr ⟨_, _, rfl⟩)⟩

theorem createTicket_effects (env : Env) (ticketData : TicketData) :
    ∃ rest, (createTicket env ticketData).effects =
        [.speak "Creating your ticket now...".toList, .post "/tickets/".toList ticketData] ++ rest ∧
      ∀ e ∈ rest, isPost e = false := by
  unfold createTicket
  simp only
  split
  · exact ⟨_, rfl, by simp [isPost]⟩
  · split
    · exact ⟨_, rfl, by simp [isPost]⟩
    · split
      · exact ⟨_, rfl, by simp [isPost]⟩
      · refine ⟨_, by rw [List.append_assoc], ?_⟩
        intro e he
        simp only [List.mem_append, List.mem_singleton] at he
        rcases he with rfl | he
        · rfl
        · split at he
          · simp only [List.mem_singleton] at he; subst he; rfl
          · cases he

/-- C7: when both guards of `handleNewTicket` pass, the confirmation utterance is
followed at once by the submission: the effects are the confirmation, the creation
notice and one `POST /tickets/` whose body has the title, description, location and
priority the confirmation states and status `Open`, and no other `POST`; when a guard
fails, the only effect is a prompt and there is no `POST`. -/
theorem handleNewTicket_submits_unconditionally (env : Env) (transcript : Str) :
    (issuePattern.test transcript = true → detailsPattern.test transcript = true →
      ∃ (title description location priority reason : Str) (rest : List Effect),
        (handleNewTicket env transcript).effects =
          [.speak ("I'll create a ".toList ++ priority ++ " priority ticket for: ".toList ++
              title ++ ". ".toList ++
              ("Location: ".toList ++ location ++ ". ".toList) ++
              ("Description: ".toList ++ description ++ ". ".toList) ++
              (reason ++ " Would you like me to submit this request?".toList)),
           .speak "Creating your ticket now...".toList,
           .post "/tickets/".toList
             { title := title, description := description, location := location,
               priority := priority, status := "Open".toList, created_at := env.nowISO }] ++
          rest ∧
        (∀ e ∈ rest, isPost e = false) ∧
        ((handleNewTicket env transcript).effects.filter isPost).length = 1) ∧
    (issuePattern.test transcript = false →
      (handleNewTicket env transcript).effects =
        [.speak ("I can help you create a maintenance request. " ++
          "Please describe the issue you're experiencing.").toList]) ∧
    (issuePattern.test transcript = true → detailsPattern.test transcript = false →
      (handleNewTicket env transcript).effects =
        [.speak ("I'll create a ticket for ".toList ++ ticketTitle env transcript ++
          ". Could you please provide more details about the issue?".toList)]) ∧
    ((issuePattern.test transcript = false ∨ detailsPattern.test transcript = false) →
      (handleNewTicket env transcript).effects.filter isPost = []) := by
  have hA : issuePattern.test transcript = false →
      (handleNewTicket env transcript).effects = [.speak describePrompt] := by
    intro h1
    simp only [handleNewTicket, h1, Bool.not_false, if_true]
  have hB : issuePattern.test transcript = true → detailsPattern.test transcript = false →
      (handleNewTicket env transcript).effects =
        [.speak (detailsPrompt (ticketTitle env transcript))] := by
    intro h1 h2
    simp only [handleNewTicket, h1, h2, Bool.not_true, Bool.not_false, Bool.false_eq_true,
      if_true, if_false]
  refine ⟨?_, ?_, ?_, ?_⟩
  · intro h1 h2
    obtain ⟨rest, hrest, hnp⟩ := createTicket_effects env (ticketDraft env transcript)
    refine ⟨ticketTitle env transcript, ticketDescription transcript, ticketLocation transcript,
      (ticketPriority transcript).1, (ticketPriority transcript).2, rest, ?_, hnp, ?_⟩
    · simp only [handleNewTicket, h1, h2, Bool.not_true, Bool.false_eq_true, if_false, hrest]
      rfl
    · simp only [handleNewTicket, h1, h2, Bool.not_true, Bool.false_eq_true, if_false, hrest]
      have : rest.filter isPost = [] := List.filter_eq_nil_iff.2 (fun e he => by simp [hnp e he])
      simp [List.filter_cons, isPost, this]
  · intro h1
    rw [hA h1]; rfl
  · intro h1 h2
    rw [hB h1 h2]; rfl
  · intro h
    by_cases h1 : issuePattern.test transcript = true
    · have h2 : detailsPattern.test transcript = false := by
        rcases h with h | h
        · rw [h] at h1; cases h1
        · exact h
      rw [hB h1 h2]; rfl
    · rw [hA (by simpa using h1)]; rfl

/-- Witness for C7: a full request is confirmed and posted in one go; a bare trigger
phrase only gets the prompt for details. -/
theorem handleNewTicket_submits_unconditionally_witness :
    (∃ (title description location priority reason : Str) (rest : List Effect),
        (handleNewTicket acceptingEnv
            "report an issue with the broken door in the lobby".toList).effects =
          [.speak ("I'll create a ".toList ++ priority ++ " priority ticket for: ".toList ++
              title ++ ". ".toList ++
              ("Location: ".toList ++ location ++ ". ".toList) ++
              ("Description: ".toList ++ description ++ ". ".toList) ++
              (reason ++ " Would you like me to submit this request?".toList)),
           .speak "Creating your ticket now...".toList,
           .post "/tickets/".toList
             { title := title, description := description, location := location,
               priority := priority, status := "Open".toList,
               created_at := acceptingEnv.nowISO }] ++
          rest ∧
        (∀ e ∈ rest, isPost e = false) ∧
        ((handleNewTicket acceptingEnv
          "report an issue with the broken door in the lobby".toList).effects.filter
            isPost).length = 1) ∧
    (handleNewTicket acceptingEnv "report an issue".toList).effects.filter isPost = [] :=
  ⟨(handleNewTicket_submits_unconditionally acceptingEnv
      "report an issue with the broken door in the lobby".toList).1 (by decide) (by decide),
   (handleNewTicket_submits_unconditionally acceptingEnv
      "report an issue".toList).2.2.2 (Or.inr (by decide))⟩

theorem containsAny_eq_true_iff (text : Str) (keywords : List Str) :
    containsAny text keywords = true ↔ ∃ w ∈ keywords, includes (foldCase text) w = true := by
  simp [containsAny]

theorem containsAny_perm (text : Str) {k1 k2 : List Str} (h : k1.Perm k2) :
    containsAny text k1 = containsAny text k2 := by
  rw [Bool.eq_iff_iff, containsAny_eq_true_iff, containsAny_eq_true_iff]
  constructor
  · rintro ⟨w, hw, h2⟩; exact ⟨w, h.subset hw, h2⟩
  · rintro ⟨w, hw, h2⟩; exact ⟨w, h.symm.subset hw, h2⟩

theorem containsAny_append (text : Str) (k1 k2 : List Str) :
    containsAny text (k1 ++ k2) = (containsAny text k1 || containsAny text k2) := by
  simp [containsAny]

/-- The first priority test is true exactly when the transcript contains `urgent` or an
emergency keyword. -/
theorem emergencyPattern_test (transcript : Str) :
    emergencyPattern.test transcript =
      containsAny transcript ("urgent".toList :: emergencyKeywords) := by
  rw [test_eq_containsAny emergencyPattern
    (["urgent", "emergency", "immediately", "right now", "flood", "flooding", "leak", "leaking",
      "flooded", "fire", "smoke", "spark", "sparking", "electrical shock"].map String.toList)
    (by decide)]
  exact containsAny_perm _ (by decide)

/-- The second priority test is true exactly when the transcript contains a high-priority
keyword. -/
theorem highPattern_test (transcript : Str) :
    highPattern.test transcript = containsAny transcript highKeywords :=
  test_eq_containsAny highPattern highKeywords (by decide) transcript

/-- The third priority test is true exactly when the transcript contains a medium
keyword. -/
theorem mediumPattern_test (transcript : Str) :
    mediumPattern.test transcript = containsAny transcript mediumKeywords :=
  test_eq_containsAny mediumPattern mediumKeywords (by decide) transcript

theorem handleNewTicket_draft_effects (env : Env) (transcript : Str)
    (h1 : issuePattern.test transcript = true) (h2 : detailsPattern.test transcript = true) :
    (handleNewTicket env transcript).effects =
      .speak (confirmationMessage (ticketPriority transcript).1 (ticketTitle env transcript)
        (ticketLocation transcript) (ticketDescription transcript)
        (ticketPriority transcript).2) ::
      (createTicket env (ticketDraft env transcript)).effects := by
  simp only [handleNewTicket, h1, h2, Bool.not_true, Bool.false_eq_true, if_false]

/-- C2 (amended): for a transcript that builds a draft and does not contain `not urgent`,
the priority is P1 when it contains `urgent` or an emergency keyword, whatever else it
contains; otherwise P2 when it contains a high-priority keyword; otherwise P3 when it
contains `moderate`, `medium`, `normal`, `minor`, `small` or `slight`; otherwise P4; and
the priority of the confirmation utterance is the priority of the submitted draft. -/
theorem ticketPriority_keyword_precedence (env : Env) (transcript : Str)
    (h1 : issuePattern.test transcript = true) (h2 : detailsPattern.test transcript = true)
    (hnu : containsAny transcript ["not urgent".toList] = false) :
    (ticketDraft env transcript).priority = amendedPriority transcript ∧
    ∃ (title location description reason : Str) (rest : List Effect),
      (handleNewTicket env transcript).effects =
        .speak (confirmationMessage (amendedPriority transcript) title location description
          reason) ::
        .speak "Creating your ticket now...".toList ::
        .post "/tickets/".toList
          { title := title, description := description, location := location,
            priority := amendedPriority transcript, status := "Open".toList,
            created_at := env.nowISO } :: rest := by
  have hmed : containsAny transcript mediumKeywords =
      containsAny transcript
        (["moderate", "medium", "normal", "minor", "small", "slight"].map String.toList) := by
    have : mediumKeywords =
        ["moderate", "medium", "normal", "minor", "small", "slight"].map String.toList ++
          ["not urgent".toList] := by decide
    rw [this, containsAny_append, hnu, Bool.or_false]
  have hp : (ticketPriority transcript).1 = amendedPriority transcript := by
    unfold ticketPriority amendedPriority
    rw [emergencyPattern_test, highPattern_test, mediumPattern_test, hmed]
    split
    · rfl
    · split
      · rfl
      · split <;> rfl
  refine ⟨hp, ?_⟩
  obtain ⟨rest, hrest, _⟩ := createTicket_effects env (ticketDraft env transcript)
  refine ⟨ticketTitle env transcript, ticketLocation transcript, ticketDescription transcript,
    (ticketPriority transcript).2, rest, ?_⟩
  rw [handleNewTicket_draft_effects env transcript h1 h2, hrest, ← hp]
  rfl

/-- Witness for C2 (amended): an emergency keyword together with `broken` gives P1. -/
theorem ticketPriority_keyword_precedence_witness :
    (ticketDraft sampleEnv "report an issue with a broken pipe leaking".toList).priority =
      "P1".toList := by
  have h := (ticketPriority_keyword_precedence sampleEnv
    "report an issue with a broken pipe leaking".toList (by decide) (by decide) (by decide)).1
  rw [h]
  decide

/-- C2 (counterexample): the transcript `report an issue with urgent door` builds a draft
and contains no keyword of the three lists of the specification, which therefore gives
P4; the draft has P1. -/
theorem claimedPriority_counterexample :
    issuePattern.test "report an issue with urgent door".toList = true ∧
    detailsPattern.test "report an issue with urgent door".toList = true ∧
    claimedPriority "report an issue with urgent door".toList = "P4".toList ∧
    (ticketDraft sampleEnv "report an issue with urgent door".toList).priority =
      "P1".toList ∧
    (ticketDraft sampleEnv "report an issue with urgent door".toList).priority ≠
      claimedPriority "report an issue with urgent door".toList := by
  decide

/-- C3 (amended): for a transcript that builds a draft and contains `broken` but neither
`urgent` nor any emergency keyword, the draft priority is P2. -/
theorem broken_without_emergency_is_P2 (env : Env) (transcript : Str)
    (_h1 : issuePattern.test transcript = true) (_h2 : detailsPattern.test transcript = true)
    (hbroken : containsAny transcript ["broken".toList] = true)
    (hnone : containsAny transcript ("urgent".toList :: emergencyKeywords) = false) :
    (ticketDraft env transcript).priority = "P2".toList := by
  have hhigh : containsAny transcript highKeywords = true := by
    rw [containsAny_eq_true_iff] at hbroken ⊢
    obtain ⟨w, hw, hin⟩ := hbroken
    have : w = "broken".toList := by simpa using hw
    subst this
    exact ⟨_, by decide, hin⟩
  show (ticketPriority transcript).1 = "P2".toList
  unfold ticketPriority
  rw [emergencyPattern_test, highPattern_test, hnone, hhigh]
  rfl

/-- Witness for C3 (amended) at `report an issue with the broken door in the lobby`. -/
theorem broken_without_emergency_is_P2_witness :
    (ticketDraft sampleEnv "report an issue with the broken door in the lobby".toList).priority =
      "P2".toList :=
  broken_without_emergency_is_P2 sampleEnv
    "report an issue with the broken door in the lobby".toList
    (by decide) (by decide) (by decide) (by decide)

/-- C3 (counterexample): the transcript `report an issue about an urgent repair` builds a
draft, contains `urgent` and none of the emergency keywords of the specification, and
its draft has priority P1, not P2. -/
theorem urgent_without_emergency_counterexample :
    issuePattern.test "report an issue about an urgent repair".toList = true ∧
    detailsPattern.test "report an issue about an urgent repair".toList = true ∧
    containsAny "report an issue about an urgent repair".toList
      ["urgent".toList, "broken".toList] = true ∧
    containsAny "report an issue about an urgent repair".toList emergencyKeywords = false ∧
    (ticketDraft sampleEnv "report an issue about an urgent repair".toList).priority =
      "P1".toList ∧
    (ticketDraft sampleEnv "report an issue about an urgent repair".toList).priority ≠
      "P2".toList := by
  decide

theorem handleNewTicket_post_is_draft (env : Env) (transcript : Str) (url : Str)
    (body : TicketData) (h : Effect.post url body ∈ (handleNewTicket env transcript).effects) :
    body = ticketDraft env transcript := by
  by_cases h1 : issuePattern.test transcript = true
  · by_cases h2 : detailsPattern.test transcript = true
    · rw [handleNewTicket_draft_effects env transcript h1 h2] at h
      obtain ⟨rest, hrest, hnp⟩ := createTicket_effects env (ticketDraft env transcript)
      rw [hrest] at h
      simp only [List.mem_cons, List.cons_append, List.nil_append, reduceCtorEq, false_or,
        Effect.post.injEq] at h
      rcases h with ⟨_, h⟩ | h
      · exact h
      · have := hnp _ h
        simp [isPost] at this
    · simp only [handleNewTicket, h1, h2, Bool.not_true, Bool.not_false, Bool.false_eq_true,
        if_true, if_false, List.mem_singleton, reduceCtorEq] at h
  · simp only [handleNewTicket, h1, Bool.not_false, if_true, List.mem_singleton,
      reduceCtorEq] at h

theorem orString_of_empty (e : Option Str) (b : Str) (h : e = none ∨ e = some []) :
    orString e b = b := by
  rcases h with rfl | rfl <;> rfl

theorem orString_of_nonempty (e : Option Str) (b v : Str) (h : e = some v) (hv : v ≠ []) :
    orString e b = v := by
  subst h
  cases v with
  | nil => exact absurd rfl hv
  | cons c cs => rfl

/-- C10: the title, description and location of every submitted draft are non-empty. A
field takes the first capture that is not empty after trimming and else its placeholder
(`General Maintenance`, `No additional details provided`, `Not specified`), and the
clean-up of title and location never turns a non-empty trimmed text into the empty
text. -/
theorem draft_fields_nonempty (env : Env) (transcript : Str) :
    (∀ url body, Effect.post url body ∈ (handleNewTicket env transcript).effects →
      body.title ≠ [] ∧ body.description ≠ [] ∧ body.location ≠ []) ∧
    ((extractFromPattern transcript titlePattern1 = none ∨
        extractFromPattern transcript titlePattern1 = some []) →
      (∀ v, extractFromPattern transcript titlePattern2 = some v → v ≠ [] →
        extractTitle transcript = v) ∧
      ((extractFromPattern transcript titlePattern2 = none ∨
          extractFromPattern transcript titlePattern2 = some []) →
        extractTitle transcript = "General Maintenance".toList)) ∧
    ((extractFromPattern transcript descriptionPattern = none ∨
        extractFromPattern transcript descriptionPattern = some []) →
      ticketDescription transcript = "No additional details provided".toList) ∧
    ((extractFromPattern transcript locationPattern1 = none ∨
        extractFromPattern transcript locationPattern1 = some []) →
      (∀ v, extractFromPattern transcript locationPattern2 = some v → v ≠ [] →
        extractLocation transcript = v) ∧
      ((extractFromPattern transcript locationPattern2 = none ∨
          extractFromPattern transcript locationPattern2 = some []) →
        extractLocation transcript = "Not specified".toList)) ∧
    (∀ s : Str, s ≠ [] → trim s = s → cleanTitle env s ≠ [] ∧ cleanLocation s ≠ []) := by
  refine ⟨?_, ?_, ?_, ?_, ?_⟩
  · intro url body h
    rw [handleNewTicket_post_is_draft env transcript url body h]
    refine ⟨cleanTitle_ne_nil env _ (extractTitle_endsVisible transcript), ?_,
      cleanLocation_ne_nil _ (extractLocation_endsVisible transcript)⟩
    exact orString_ne_nil _ _ (by decide)
  · intro h1
    refine ⟨?_, ?_⟩
    · intro v h2 hv
      unfold extractTitle
      rw [orString_of_empty _ _ h1, orString_of_nonempty _ _ v h2 hv]
    · intro h2
      unfold extractTitle
      rw [orString_of_empty _ _ h1, orString_of_empty _ _ h2]
  · intro h
    unfold ticketDescription
    rw [orString_of_empty _ _ h]
  · intro h1
    refine ⟨?_, ?_⟩
    · intro v h2 hv
      unfold extractLocation
      rw [orString_of_empty _ _ h1, orString_of_nonempty _ _ v h2 hv]
    · intro h2
      unfold extractLocation
      rw [orString_of_empty _ _ h1, orString_of_empty _ _ h2]
  · intro s hs ht
    have := endsVisible_of_trim_eq s hs ht
    exact ⟨cleanTitle_ne_nil env s this, cleanLocation_ne_nil s this⟩

/-- Witness for C10: in `report an issue with  in` the title captures are empty and the
other patterns do not match; the draft that is posted carries the three placeholders. -/
theorem draft_fields_nonempty_witness :
    ((ticketDraft sampleEnv "report an issue with  in".toList).title ≠ [] ∧
      (ticketDraft sampleEnv "report an issue with  in".toList).description ≠ [] ∧
      (ticketDraft sampleEnv "report an issue with  in".toList).location ≠ []) ∧
    extractTitle "report an issue with  in".toList = "General Maintenance".toList ∧
    ticketDescription "report an issue with  in".toList =
      "No additional details provided".toList ∧
    extractLocation "report an issue with  in".toList = "Not specified".toList ∧
    (cleanTitle sampleEnv "the lobby".toList ≠ [] ∧ cleanLocation "the lobby".toList ≠ []) :=
  ⟨(draft_fields_nonempty sampleEnv "report an issue with  in".toList).1
      "/tickets/".toList (ticketDraft sampleEnv "report an issue with  in".toList) (by decide),
   ((draft_fields_nonempty sampleEnv "report an issue with  in".toList).2.1
      (Or.inr (by decide))).2 (Or.inr (by decide)),
   (draft_fields_nonempty sampleEnv "report an issue with  in".toList).2.2.1
      (Or.inl (by decide)),
   ((draft_fields_nonempty sampleEnv "report an issue with  in".toList).2.2.2.1
      (Or.inl (by decide))).2 (Or.inl (by decide)),
   (draft_fields_nonempty sampleEnv "report an issue with  in".toList).2.2.2.2
      "the lobby".toList (by decide) (by decide)⟩

theorem fallback_ne_draft_effects (env : Env) (transcript : Str)
    (h1 : issuePattern.test transcript = true) (h2 : detailsPattern.test transcript = true) :
    [Effect.speak fallbackText] ≠ (handleNewTicket env transcript).effects := by
  intro h
  obtain ⟨rest, hrest, _⟩ := createTicket_effects env (ticketDraft env transcript)
  rw [handleNewTicket_draft_effects env transcript h1 h2, hrest] at h
  simp only [List.cons_append, List.nil_append, List.cons.injEq, reduceCtorEq, and_false] at h

/-- C9 (evaluation of the code at the advertised commands): of the seven example commands
of the help script, `Check status of ticket 123`, `What events are coming up?` and `Help`
reach the handler the script describes, while `Report a problem with my AC`,
`I have a leak in my bathroom`, `The elevator is not working` and
`Any events this weekend?` end in the fallback utterance with no request, which is not
what ticket creation or the event query would have produced for them. -/
theorem help_examples_dispatch (env : Env) :
    processVoiceCommand env "Check status of ticket 123".toList =
      handleTicketStatus env "123".toList ∧
    processVoiceCommand env "What events are coming up?".toList = handleEventQuery env ∧
    processVoiceCommand env "Help".toList = showHelp ∧
    (processVoiceCommand env "Report a problem with my AC".toList = [.speak fallbackText] ∧
      processVoiceCommand env "Report a problem with my AC".toList ≠
        (handleNewTicket env (toLowerCase env "Report a problem with my AC".toList)).effects) ∧
    (processVoiceCommand env "I have a leak in my bathroom".toList = [.speak fallbackText] ∧
      processVoiceCommand env "I have a leak in my bathroom".toList ≠
        (handleNewTicket env (toLowerCase env "I have a leak in my bathroom".toList)).effects) ∧
    (processVoiceCommand env "The elevator is not working".toList = [.speak fallbackText] ∧
      processVoiceCommand env "The elevator is not working".toList ≠
        (handleNewTicket env (toLowerCase env "The elevator is not working".toList)).effects) ∧
    (processVoiceCommand env "Any events this weekend?".toList = [.speak fallbackText] ∧
      processVoiceCommand env "Any events this weekend?".toList ≠ handleEventQuery env) := by
  have e1 : processVoiceCommand env "Report a problem with my AC".toList =
      [.speak fallbackText] := rfl
  have e2 : processVoiceCommand env "I have a leak in my bathroom".toList =
      [.speak fallbackText] := rfl
  have e3 : processVoiceCommand env "The elevator is not working".toList =
      [.speak fallbackText] := rfl
  have e4 : processVoiceCommand env "Any events this weekend?".toList =
      [.speak fallbackText] := rfl
  refine ⟨rfl, rfl, rfl, ⟨e1, ?_⟩, ⟨e2, ?_⟩, ⟨e3, ?_⟩, ⟨e4, ?_⟩⟩
  · rw [e1]
    exact fallback_ne_draft_effects env _ rfl rfl
  · rw [e2]
    have h : (handleNewTicket env (toLowerCase env "I have a leak in my bathroom".toList)).effects =
        [.speak describePrompt] := rfl
    rw [h]
    decide
  · rw [e3]
    have h : (handleNewTicket env (toLowerCase env "The elevator is not working".toList)).effects =
        [.speak describePrompt] := rfl
    rw [h]
    decide
  · rw [e4]
    intro h
    simp only [handleEventQuery, List.cons.injEq, reduceCtorEq, false_and] at h

end VoiceInterface
